import Mathlib

/-!
Catalog filter view (`app/static/js/catalog.js`).

A shallow embedding of the browser-side catalog widget: the filter pipeline of
`filterAndRender`, the markup produced by `renderGrid` and `renderActiveFilters`,
`escapeHtml`, and the event handlers wired at `DOMContentLoaded`, followed by the
properties established about them.

Conventions of the embedding.
* A JavaScript string is the list of its UTF-16 code units.
* A JavaScript number that is an integer is an `Int`; `NaN` is `none`.  Integers are
  exact below `2 ^ 53`, which is where the program's identifiers live.
* `String.prototype.toLowerCase` depends on the Unicode case tables of the host and is
  a parameter (`CaseFolding`).
* The page is an explicit record (`Page`); handlers are functions on it.
* Items are typed records (`Item`); `RawItem` is the unchecked JSON view of them, with
  the accesses that can throw returning `Except`, and the two agree on typed items.
-/

namespace Catalog

/-! ## Strings -/

/-- JavaScript strings: sequences of UTF-16 code units. -/
abbrev JSString := List Nat

/-- Code units of a source literal (every literal of the program is ASCII). -/
def lit (s : String) : JSString := s.toList.map Char.toNat

/-- ECMAScript `WhiteSpace` and `LineTerminator` code points, the ones `trim` and
`parseInt` strip. -/
def isWhiteSpace (c : Nat) : Bool :=
  c == 0x09 || c == 0x0A || c == 0x0B || c == 0x0C || c == 0x0D || c == 0x20 ||
  c == 0xA0 || c == 0x1680 || (0x2000 ≤ c && c ≤ 0x200A) || c == 0x2028 ||
  c == 0x2029 || c == 0x202F || c == 0x205F || c == 0x3000 || c == 0xFEFF

/-- Leading white space removed. -/
def trimStart (s : JSString) : JSString := s.dropWhile isWhiteSpace

/-- Trailing white space removed. -/
def trimEnd (s : JSString) : JSString := (s.reverse.dropWhile isWhiteSpace).reverse

/-- The method `String.prototype.trim`. -/
def trim (s : JSString) : JSString := trimEnd (trimStart s)

/-- The method `String.prototype.includes`: `q` occurs in `s` at some position. -/
def includes (s q : JSString) : Bool := s.tails.any (fun t => q.isPrefixOf t)

/-- The host's `String.prototype.toLowerCase`.  Its case tables are not part of the
program; the one fact recorded is that a string of white space has no cased
character and is returned as it is. -/
structure CaseFolding where
  /-- The lower-casing function itself. -/
  toLowerCase : JSString → JSString
  /-- White space is caseless. -/
  whiteSpace_fixed : ∀ s : JSString, (∀ c ∈ s, isWhiteSpace c = true) → toLowerCase s = s

/-- Lower-casing of one code unit in the ASCII range. -/
def asciiLowerUnit (c : Nat) : Nat := if 0x41 ≤ c ∧ c ≤ 0x5A then c + 0x20 else c

/-- The restriction of `toLowerCase` to ASCII letters, used to run the program on
ASCII data. -/
def asciiFolding : CaseFolding where
  toLowerCase s := s.map asciiLowerUnit
  whiteSpace_fixed := by
    intro s hs
    induction s with
    | nil => rfl
    | cons c t ih =>
      have hc : isWhiteSpace c = true := hs c (List.mem_cons_self _ _)
      have ht : t.map asciiLowerUnit = t := ih (fun d hd => hs d (List.mem_cons_of_mem _ hd))
      have hcu : asciiLowerUnit c = c := by
        unfold asciiLowerUnit
        split
        · rename_i h
          exfalso
          have h1 := h.1
          have h2 := h.2
          simp only [isWhiteSpace, Bool.or_eq_true, beq_iff_eq, Bool.and_eq_true,
            decide_eq_true_eq] at hc
          omega
        · rfl
      simp only [List.map_cons, hcu, ht]

/-! ## Numbers -/

/-- A JavaScript number holding an integer, or `NaN` (`none`). -/
abbrev JSNum := Option Int

/-- Value of a digit in the given radix, if the code unit is one. -/
def digitValue (radix c : Nat) : Option Nat :=
  let v : Option Nat :=
    if 0x30 ≤ c ∧ c ≤ 0x39 then some (c - 0x30)
    else if 0x61 ≤ c ∧ c ≤ 0x7A then some (c - 0x61 + 10)
    else if 0x41 ≤ c ∧ c ≤ 0x5A then some (c - 0x41 + 10)
    else none
  v.bind (fun d => if d < radix then some d else none)

/-- The longest leading run of digits of the radix, as digit values. -/
def takeDigits (radix : Nat) : JSString → List Nat
  | [] => []
  | c :: s =>
    match digitValue radix c with
    | some d => d :: takeDigits radix s
    | none => []

/-- The global `parseInt` called with one argument: leading white space and a sign
are skipped, a `0x`/`0X` mark switches to radix 16, the longest run of digits is
read, and `NaN` is returned when that run is empty. -/
def parseInt (str : JSString) : JSNum :=
  let s := trimStart str
  let negative := s.head? == some 0x2D
  let s := if s.head? == some 0x2D || s.head? == some 0x2B then s.tail else s
  let hex := s.take 2 == [0x30, 0x78] || s.take 2 == [0x30, 0x58]
  let radix := if hex then 16 else 10
  let s := if hex then s.drop 2 else s
  match takeDigits radix s with
  | [] => none
  | ds =>
    let n : Nat := ds.foldl (fun acc d => acc * radix + d) 0
    some (if negative then - (n : Int) else (n : Int))

/-- Decimal digits of a natural number, as a JavaScript string. -/
def natToString (n : Nat) : JSString := lit (Nat.repr n)

/-- The string a number takes in a template literal. -/
def numToString : JSNum → JSString
  | none => lit "NaN"
  | some (Int.ofNat n) => natToString n
  | some (Int.negSucc n) => 0x2D :: natToString (n + 1)

/-! ## Data model -/

/-- A classification tag of the fetched JSON. -/
structure Category where
  /-- Integer identifier, the one a filter control carries as its value. -/
  id : Int
  /-- Display label. -/
  name : JSString
  /-- Badge kind. -/
  type : JSString
deriving DecidableEq, Repr

/-- The identifier of an item: a JSON number or a JSON string. -/
inductive ItemId where
  | num (n : Int)
  | str (s : JSString)
deriving DecidableEq, Repr

/-- The string an item identifier takes in a template literal. -/
def ItemId.toJSString : ItemId → JSString
  | .num n => numToString (some n)
  | .str s => s

/-- One catalog entry of the fetched JSON. -/
structure Item where
  /-- Identifier used for the detail link. -/
  id : ItemId
  /-- Display name. -/
  name : JSString
  /-- Short description. -/
  tagline : JSString
  /-- Logo address; `none` when the field is absent or `null`. -/
  logo : Option JSString
  /-- Emphasis flag. -/
  featured : Bool
  /-- Attached categories, in order. -/
  categories : List Category
deriving DecidableEq, Repr

/-- A `Set` built from an array: insertion order, later duplicates dropped. -/
def setOf {α : Type} [DecidableEq α] (xs : List α) : List α :=
  xs.foldl (fun acc x => if x ∈ acc then acc else acc ++ [x]) []

/-- One `.filter-option input[type="checkbox"]` of the page. -/
structure Checkbox where
  /-- The `value` attribute. -/
  value : JSString
  /-- The `checked` state. -/
  checked : Bool
  /-- Text of the `.badge` element inside the parent element, if there is one. -/
  badge : Option JSString
deriving DecidableEq, Repr

/-- A pending timeout of the host; the only callback the program ever schedules is
`filterAndRender`. -/
structure Timer where
  /-- Handle returned by `setTimeout`. -/
  id : Nat
  /-- Time at which the callback becomes due, in milliseconds. -/
  due : Nat
deriving DecidableEq, Repr

/-- The page elements the script touches together with the script's own variables. -/
structure Page where
  /-- Text of `searchInput.value`. -/
  searchValue : JSString
  /-- The filter check boxes, in document order. -/
  checkboxes : List Checkbox
  /-- Markup last assigned to `grid.innerHTML`. -/
  grid : JSString
  /-- Markup last assigned to `activeFiltersEl.innerHTML`. -/
  activeFilters : JSString
  /-- The `data-id` of each `.active-filter` button carrying a click listener. -/
  chips : List JSString
  /-- Text `catalogCount.textContent`. -/
  catalogCount : JSString
  /-- Whether `filterSidebar` has the class `open`. -/
  sidebarOpen : Bool
  /-- The variable `allSoftware`. -/
  allSoftware : List Item
  /-- The variable `debounceTimer` (`none` is `null`). -/
  debounceTimer : Option Nat
  /-- Pending timeouts of the host, in creation order. -/
  timers : List Timer
  /-- Next handle `setTimeout` hands out. -/
  nextTimer : Nat
  /-- Current time in milliseconds. -/
  now : Nat
  /-- Number of completed runs of `filterAndRender` (bookkeeping only). -/
  recomputes : Nat
deriving DecidableEq, Repr

/-! ## `escapeHtml` -/

/-- Serialisation of one code unit of a text node, as `innerHTML` produces it. -/
def escapeUnit (c : Nat) : JSString :=
  if c = 0x26 then lit "&amp;"
  else if c = 0xA0 then lit "&nbsp;"
  else if c = 0x3C then lit "&lt;"
  else if c = 0x3E then lit "&gt;"
  else [c]

/-- The function `escapeHtml`: the argument (or `""` when it is `undefined` or empty)
becomes the text of a fresh `div`, whose `innerHTML` is returned. -/
def escapeHtml (str : Option JSString) : JSString :=
  (str.getD []).flatMap escapeUnit

/-! ## `filterAndRender`: the filter pipeline -/

/-- The `selectedCats` of `filterAndRender`: parsed values of the checked boxes. -/
def selectedCats (checkboxes : List Checkbox) : List JSNum :=
  setOf ((checkboxes.filter (fun cb => cb.checked)).map (fun cb => parseInt cb.value))

/-- Callback of the text search. -/
def textMatch (L : CaseFolding) (query : JSString) (s : Item) : Bool :=
  includes (L.toLowerCase s.name) query || includes (L.toLowerCase s.tagline) query

/-- Callback of the category filter: `false` at the first selected id the item lacks. -/
def catMatch (selected : List JSNum) (s : Item) : Bool :=
  let catIds : List JSNum := setOf (s.categories.map (fun c => some c.id))
  selected.all (fun id => decide (id ∈ catIds))

/-- The value of `filtered` when `renderGrid` is called. -/
def applyFilters (L : CaseFolding) (query : JSString) (selected : List JSNum)
    (allSoftware : List Item) : List Item :=
  let filtered := allSoftware
  let filtered := if query ≠ [] then filtered.filter (textMatch L query) else filtered
  let filtered := if selected.length > 0 then filtered.filter (catMatch selected) else filtered
  filtered

/-- The `query` of `filterAndRender`. -/
def queryOf (L : CaseFolding) (p : Page) : JSString := trim (L.toLowerCase p.searchValue)

/-- The list `filtered` computed by `filterAndRender` on a page. -/
def filteredOf (L : CaseFolding) (p : Page) : List Item :=
  applyFilters L (queryOf L p) (selectedCats p.checkboxes) p.allSoftware

/-! ## `renderGrid` -/

/-- The constant `CARD_BADGE_TYPES`. -/
def CARD_BADGE_TYPES : List JSString :=
  [lit "dpa_status", lit "cost", lit "roster", lit "access"]

/-- Placeholder shown for an empty result. -/
def noResultsHtml : JSString :=
  lit "<div class=\"no-results\">No software matches your search or filters.</div>"

/-- The expression `s.name[0]`: the first code unit, `undefined` for the empty name. -/
def firstUnit (name : JSString) : Option JSString := name.head?.map (fun c => [c])

/-- Truthiness of `s.logo`. -/
def logoPresent (s : Item) : Bool :=
  match s.logo with
  | some (_ :: _) => true
  | _ => false

/-- The `logoHtml` of a card. -/
def logoHtml (s : Item) : JSString :=
  if logoPresent s then
    lit "<img class=\"card-logo\" src=\"" ++ escapeHtml s.logo ++
    lit "\" alt=\"\" onerror=\"this.style.display=\x27none\x27; this.nextElementSibling.style.display=\x27flex\x27;\">\n                   <div class=\"logo-placeholder\" style=\"display:none;\">" ++
    escapeHtml (firstUnit s.name) ++ lit "</div>"
  else
    lit "<div class=\"logo-placeholder\">" ++ escapeHtml (firstUnit s.name) ++ lit "</div>"

/-- Markup of one badge. -/
def badgeHtml (c : Category) : JSString :=
  lit "<span class=\"badge badge-" ++ c.type ++ lit "\" data-name=\"" ++
  escapeHtml (some c.name) ++ lit "\">" ++ escapeHtml (some c.name) ++ lit "</span>"

/-- The categories shown on the card face. -/
def cardBadges (s : Item) : List Category :=
  s.categories.filter (fun c => decide (c.type ∈ CARD_BADGE_TYPES))

/-- The `badges` of a card. -/
def badgesHtml (s : Item) : JSString :=
  ((cardBadges s).map badgeHtml).flatten

/-- Markup of one card. -/
def cardHtml (s : Item) : JSString :=
  lit "\n                <a href=\"/software/" ++ s.id.toJSString ++
  lit "\" class=\"software-card " ++ (if s.featured then lit "featured" else lit "") ++
  lit "\">\n                    <div class=\"card-header\">\n                        " ++
  logoHtml s ++
  lit "\n                        <div class=\"card-name\">" ++ escapeHtml (some s.name) ++
  lit "</div>\n                    </div>\n                    <div class=\"card-tagline\">" ++
  escapeHtml (some s.tagline) ++
  lit "</div>\n                    <div class=\"card-badges\">" ++ badgesHtml s ++
  lit "</div>\n                </a>\n            "

/-- The markup `renderGrid` assigns to `grid.innerHTML`. -/
def gridHtml (items : List Item) : JSString :=
  if items.length = 0 then noResultsHtml else (items.map cardHtml).flatten

/-- The function `renderGrid`. -/
def renderGrid (items : List Item) (p : Page) : Page :=
  { p with grid := gridHtml items }

/-! ## `renderActiveFilters` -/

/-- An entry of the array `labels`. -/
structure Label where
  /-- Parsed value of the check box. -/
  id : JSNum
  /-- Text of the badge of the check box, or its raw value when it has none. -/
  name : JSString
deriving DecidableEq, Repr

/-- The array `labels`: one entry per checked box, in document order. -/
def labelsOf (checkboxes : List Checkbox) : List Label :=
  (checkboxes.filter (fun cb => cb.checked)).map
    (fun cb => { id := parseInt cb.value, name := cb.badge.getD cb.value })

/-- Markup of one chip. -/
def chipHtml (l : Label) : JSString :=
  lit "<button class=\"active-filter\" data-id=\"" ++ numToString l.id ++ lit "\">" ++
  escapeHtml (some l.name) ++ lit " &times;</button>"

/-- The function `renderActiveFilters`.  The buttons found by `querySelectorAll` are
the ones just written, one per label, and `dataset.id` of each is the text put in
its `data-id`. -/
def renderActiveFilters (selected : List JSNum) (p : Page) : Page :=
  if selected.length = 0 then
    { p with activeFilters := lit "", chips := [] }
  else
    let labels := labelsOf p.checkboxes
    { p with
      activeFilters := (labels.map chipHtml).flatten
      chips := labels.map (fun l => numToString l.id) }

/-! ## `filterAndRender` -/

/-- The text assigned to `catalogCount.textContent`. -/
def countText (filtered total : Nat) : JSString :=
  natToString filtered ++ lit " of " ++ natToString total ++ lit " items"

/-- The function `filterAndRender`. -/
def filterAndRender (L : CaseFolding) (p : Page) : Page :=
  let query := trim (L.toLowerCase p.searchValue)
  let selected := selectedCats p.checkboxes
  let filtered := applyFilters L query selected p.allSoftware
  let p := renderGrid filtered p
  let p := renderActiveFilters selected p
  { p with
    catalogCount := countText filtered.length p.allSoftware.length
    recomputes := p.recomputes + 1 }

/-! ## Host timers -/

/-- The host's `setTimeout(filterAndRender, delay)`: a fresh handle and a new pending
timeout. -/
def setTimeout (delay : Nat) (p : Page) : Nat × Page :=
  (p.nextTimer,
    { p with
      timers := p.timers ++ [{ id := p.nextTimer, due := p.now + delay }]
      nextTimer := p.nextTimer + 1 })

/-- The host's `clearTimeout`: the timeout with that handle, if pending, is dropped;
`null` and stale handles change nothing. -/
def clearTimeout (handle : Option Nat) (p : Page) : Page :=
  match handle with
  | none => p
  | some h => { p with timers := p.timers.filter (fun t => t.id != h) }

/-- Time passes: every timeout that becomes due within the next `d` milliseconds runs
its callback `filterAndRender`, in creation order (all delays are equal, so this is
the order in which they fall due). -/
def elapse (L : CaseFolding) (d : Nat) (p : Page) : Page :=
  let due := p.timers.filter (fun t => decide (t.due ≤ p.now + d))
  let rest := p.timers.filter (fun t => !decide (t.due ≤ p.now + d))
  due.foldl (fun q _ => filterAndRender L q) { p with timers := rest, now := p.now + d }

/-! ## Event listeners -/

/-- Listener of `input` on `searchInput`. -/
def onSearchInput (p : Page) : Page :=
  let p := clearTimeout p.debounceTimer p
  let (handle, p) := setTimeout 250 p
  { p with debounceTimer := some handle }

/-- Listener of `change` on each check box. -/
def onCheckboxChange (L : CaseFolding) (p : Page) : Page := filterAndRender L p

/-- Listener of `click` on `clearFiltersBtn`. -/
def onClearFilters (L : CaseFolding) (p : Page) : Page :=
  let p := { p with searchValue := lit "" }
  let p := { p with checkboxes := p.checkboxes.map (fun cb => { cb with checked := false }) }
  filterAndRender L p

/-- Listener of `click` on `filterToggle`. -/
def onFilterToggle (p : Page) : Page := { p with sidebarOpen := true }

/-- Listener of `click` on `filterClose`. -/
def onFilterClose (p : Page) : Page := { p with sidebarOpen := false }

/-- Listener of `click` on a chip whose `dataset.id` is `id`. -/
def onChipClick (L : CaseFolding) (id : JSString) (p : Page) : Page :=
  let p := { p with
    checkboxes := p.checkboxes.map
      (fun cb => if cb.value = id then { cb with checked := false } else cb) }
  filterAndRender L p

/-- Markup shown when the catalog cannot be loaded. -/
def loadFailedHtml : JSString :=
  lit "<div class=\"no-results\">Failed to load catalog. Please refresh.</div>"

/-- How the request of `fetchSoftware` ends: the `fetch` promise rejects, or it
resolves to a response with its `ok` flag and its body parsed as JSON (`none` when
`resp.json()` rejects). -/
inductive FetchOutcome where
  | rejected
  | response (ok : Bool) (body : Option (List Item))
deriving DecidableEq, Repr

/-- The part of `fetchSoftware` after `await fetch(...)`. -/
def fetchSoftwareSettled (L : CaseFolding) (r : FetchOutcome) (p : Page) : Page :=
  match r with
  | .response true (some items) => filterAndRender L { p with allSoftware := items }
  | _ => { p with grid := loadFailedHtml }

/-! ## User actions -/

/-- What can happen to the page: a user action with the browser's own effect on the
control, or the completion of the initial request. -/
inductive Event where
  /-- The user edits the search box, leaving `value` in it. -/
  | input (value : JSString)
  /-- The user toggles the check box at index `i`. -/
  | toggle (i : Nat)
  /-- The user clicks the chip at index `i`. -/
  | chipClick (i : Nat)
  /-- The user clicks "clear filters". -/
  | clearFilters
  /-- The user opens the filter panel. -/
  | openSidebar
  /-- The user closes the filter panel. -/
  | closeSidebar
  /-- The initial request settles. -/
  | fetchSettled (r : FetchOutcome)
deriving DecidableEq, Repr

/-- The check box at index `i` flipped, as the browser does before `change` fires. -/
def flipAt (i : Nat) (cbs : List Checkbox) : List Checkbox :=
  cbs.modify (fun cb => { cb with checked := !cb.checked }) i

/-- Dispatch of one event to its listener. -/
def handle (L : CaseFolding) (e : Event) (p : Page) : Page :=
  match e with
  | .input v => onSearchInput { p with searchValue := v }
  | .toggle i =>
    if i < p.checkboxes.length then
      onCheckboxChange L { p with checkboxes := flipAt i p.checkboxes }
    else p
  | .chipClick i =>
    match p.chips[i]? with
    | some id => onChipClick L id p
    | none => p
  | .clearFilters => onClearFilters L p
  | .openSidebar => onFilterToggle p
  | .closeSidebar => onFilterClose p
  | .fetchSettled r => fetchSoftwareSettled L r p

/-- A timed run: each entry waits the given number of milliseconds after the previous
event and then delivers its event. -/
def run (L : CaseFolding) (es : List (Nat × Event)) (p : Page) : Page :=
  es.foldl (fun q e => handle L e.2 (elapse L e.1 q)) p

/-- The page when the script has run its top level: nothing fetched yet, no timer,
the controls as the document has them. -/
def initialPage (searchValue : JSString) (checkboxes : List Checkbox)
    (grid activeFilters catalogCount : JSString) (sidebarOpen : Bool) : Page :=
  { searchValue := searchValue
    checkboxes := checkboxes
    grid := grid
    activeFilters := activeFilters
    chips := []
    catalogCount := catalogCount
    sidebarOpen := sidebarOpen
    allSoftware := []
    debounceTimer := none
    timers := []
    nextTimer := 1
    now := 0
    recomputes := 0 }

/-! ## Items as raw JSON, with the points where the script can throw -/

/-- A scalar of the fetched JSON as the script reads it; `undefined` is what a missing
field reads as.  Numbers are integers, as elsewhere. -/
inductive JSVal where
  | undefined
  | null
  | bool (b : Bool)
  | num (n : Int)
  | str (s : JSString)
deriving DecidableEq, Repr

/-- Truthiness of a value. -/
def JSVal.truthy : JSVal → Bool
  | .undefined => false
  | .null => false
  | .bool b => b
  | .num n => n != 0
  | .str s => !s.isEmpty

/-- The string a value takes in a template literal or as `textContent`. -/
def JSVal.toJSString : JSVal → JSString
  | .undefined => lit "undefined"
  | .null => lit "null"
  | .bool true => lit "true"
  | .bool false => lit "false"
  | .num n => numToString (some n)
  | .str s => s

/-- The error a failing property access or call raises. -/
inductive JSError where
  | typeError
deriving DecidableEq, Repr

/-- A category object of the JSON, fields unchecked. -/
structure RawCategory where
  /-- The field `id`. -/
  id : JSVal
  /-- The field `name`. -/
  name : JSVal
  /-- The field `type`. -/
  type : JSVal
deriving DecidableEq, Repr

/-- An item object of the JSON, fields unchecked.  `categories` is `none` when the
field is not an array; an element of the array is `none` when it is `null`, and
otherwise the record of its three fields, each `undefined` when the element has no
such field (a number, a string, an object without it). -/
structure RawItem where
  /-- The field `id`. -/
  id : JSVal
  /-- The field `name`. -/
  name : JSVal
  /-- The field `tagline`. -/
  tagline : JSVal
  /-- The field `logo`. -/
  logo : JSVal
  /-- The field `featured`. -/
  featured : JSVal
  /-- The field `categories`. -/
  categories : Option (List (Option RawCategory))
deriving DecidableEq, Repr

/-- The call `v.toLowerCase()`: it throws unless `v` is a string. -/
def toLowerCaseOf (L : CaseFolding) : JSVal → Except JSError JSString
  | .str s => .ok (L.toLowerCase s)
  | _ => .error .typeError

/-- The expression `v[0]`: it throws on `undefined` and `null`, gives the first code
unit of a string, and `undefined` otherwise. -/
def indexZero : JSVal → Except JSError JSVal
  | .undefined => .error .typeError
  | .null => .error .typeError
  | .str (c :: _) => .ok (.str [c])
  | _ => .ok .undefined

/-- The function `escapeHtml` on a raw value: `""` for a falsy argument, else the
escaped text of the value. -/
def escapeHtmlOf (v : JSVal) : JSString :=
  escapeHtml (if v.truthy then some v.toJSString else none)

/-- `Array.prototype.filter` with a callback that may throw. -/
def filterE {α ε : Type} (f : α → Except ε Bool) : List α → Except ε (List α)
  | [] => .ok []
  | x :: xs =>
    match f x with
    | .error e => .error e
    | .ok b =>
      match filterE f xs with
      | .error e => .error e
      | .ok ys => .ok (if b then x :: ys else ys)

/-- `Array.prototype.map` with a callback that may throw. -/
def mapE {α β ε : Type} (f : α → Except ε β) : List α → Except ε (List β)
  | [] => .ok []
  | x :: xs =>
    match f x with
    | .error e => .error e
    | .ok y =>
      match mapE f xs with
      | .error e => .error e
      | .ok ys => .ok (y :: ys)

/-- Callback of the text search on a raw item; the tagline is read only when the name
does not match. -/
def textMatchRaw (L : CaseFolding) (query : JSString) (s : RawItem) : Except JSError Bool :=
  match toLowerCaseOf L s.name with
  | .error e => .error e
  | .ok n =>
    if includes n query then .ok true
    else
      match toLowerCaseOf L s.tagline with
      | .error e => .error e
      | .ok t => .ok (includes t query)

/-- The test `catIds.has(id)` for a selected number against the ids of the JSON. -/
def hasId (catIds : List JSVal) (id : JSNum) : Bool :=
  match id with
  | none => false
  | some n => decide (JSVal.num n ∈ catIds)

/-- A field read `c.f` on an element of `categories`: it throws on `null`. -/
def readField (f : RawCategory → JSVal) : Option RawCategory → Except JSError JSVal
  | none => .error .typeError
  | some c => .ok (f c)

/-- Callback of the category filter on a raw item; `s.categories.map` throws when the
field is not an array, and its callback `c => c.id` throws on a `null` element. -/
def catMatchRaw (selected : List JSNum) (s : RawItem) : Except JSError Bool :=
  match s.categories with
  | none => .error .typeError
  | some cs =>
    match mapE (readField (fun c => c.id)) cs with
    | .error e => .error e
    | .ok ids =>
      let catIds : List JSVal := setOf ids
      .ok (selected.all (fun id => hasId catIds id))

/-- The value of `filtered` on raw items, or the error thrown on the way. -/
def applyFiltersRaw (L : CaseFolding) (query : JSString) (selected : List JSNum)
    (allSoftware : List RawItem) : Except JSError (List RawItem) :=
  match (if query ≠ [] then filterE (textMatchRaw L query) allSoftware else .ok allSoftware) with
  | .error e => .error e
  | .ok filtered =>
    if selected.length > 0 then filterE (catMatchRaw selected) filtered else .ok filtered

/-- The `logoHtml` of a raw item; `s.name[0]` is read in both branches. -/
def logoHtmlRaw (s : RawItem) : Except JSError JSString :=
  match indexZero s.name with
  | .error e => .error e
  | .ok glyph =>
    .ok (if s.logo.truthy then
      lit "<img class=\"card-logo\" src=\"" ++ escapeHtmlOf s.logo ++
      lit "\" alt=\"\" onerror=\"this.style.display=\x27none\x27; this.nextElementSibling.style.display=\x27flex\x27;\">\n                   <div class=\"logo-placeholder\" style=\"display:none;\">" ++
      escapeHtmlOf glyph ++ lit "</div>"
    else
      lit "<div class=\"logo-placeholder\">" ++ escapeHtmlOf glyph ++ lit "</div>")

/-- The test `CARD_BADGE_TYPES.includes(c.type)` on a raw category. -/
def isCardType (c : RawCategory) : Bool :=
  match c.type with
  | .str t => decide (t ∈ CARD_BADGE_TYPES)
  | _ => false

/-- Markup of one badge of a raw category. -/
def badgeHtmlRaw (c : RawCategory) : JSString :=
  lit "<span class=\"badge badge-" ++ c.type.toJSString ++ lit "\" data-name=\"" ++
  escapeHtmlOf c.name ++ lit "\">" ++ escapeHtmlOf c.name ++ lit "</span>"

/-- Callback of the badge filter, `c => CARD_BADGE_TYPES.includes(c.type)`: it throws on
a `null` element. -/
def isCardTypeE : Option RawCategory → Except JSError Bool
  | none => .error .typeError
  | some c => .ok (isCardType c)

/-- Callback of the badge map: the markup of the badge; it reads `c.type` and `c.name`
and throws on a `null` element. -/
def badgeHtmlElem : Option RawCategory → Except JSError JSString
  | none => .error .typeError
  | some c => .ok (badgeHtmlRaw c)

/-- The `badges` of a raw item; `s.categories.filter` throws when the field is not an
array, and the callbacks throw on a `null` element. -/
def badgesHtmlRaw (s : RawItem) : Except JSError JSString :=
  match s.categories with
  | none => .error .typeError
  | some cs =>
    match filterE isCardTypeE cs with
    | .error e => .error e
    | .ok kept =>
      match mapE badgeHtmlElem kept with
      | .error e => .error e
      | .ok badges => .ok badges.flatten

/-- Markup of the card of a raw item, or the error thrown on the way. -/
def cardHtmlRaw (s : RawItem) : Except JSError JSString :=
  match logoHtmlRaw s with
  | .error e => .error e
  | .ok logo =>
    match badgesHtmlRaw s with
    | .error e => .error e
    | .ok badges =>
      .ok (lit "\n                <a href=\"/software/" ++ s.id.toJSString ++
        lit "\" class=\"software-card " ++
        (if s.featured.truthy then lit "featured" else lit "") ++
        lit "\">\n                    <div class=\"card-header\">\n                        " ++
        logo ++
        lit "\n                        <div class=\"card-name\">" ++ escapeHtmlOf s.name ++
        lit "</div>\n                    </div>\n                    <div class=\"card-tagline\">" ++
        escapeHtmlOf s.tagline ++
        lit "</div>\n                    <div class=\"card-badges\">" ++ badges ++
        lit "</div>\n                </a>\n            ")

/-- The markup `renderGrid` assigns on raw items, or the error thrown on the way. -/
def gridHtmlRaw (items : List RawItem) : Except JSError JSString :=
  if items.length = 0 then .ok noResultsHtml
  else
    match mapE cardHtmlRaw items with
    | .error e => .error e
    | .ok cards => .ok cards.flatten

/-- What `filterAndRender` writes on a collection of raw items: grid, chips and count,
or the error thrown on the way. -/
def filterAndRenderRaw (L : CaseFolding) (searchValue : JSString) (checkboxes : List Checkbox)
    (allSoftware : List RawItem) : Except JSError (JSString × JSString × JSString) :=
  match applyFiltersRaw L (trim (L.toLowerCase searchValue)) (selectedCats checkboxes)
      allSoftware with
  | .error e => .error e
  | .ok filtered =>
    match gridHtmlRaw filtered with
    | .error e => .error e
    | .ok grid =>
      .ok (grid, ((labelsOf checkboxes).map chipHtml).flatten,
        countText filtered.length allSoftware.length)

/-- The condition on the fields alone: the name and the tagline are strings and the
categories are an array, whatever it holds. -/
def ListedFields (s : RawItem) : Prop :=
  (∃ n, s.name = .str n) ∧ (∃ t, s.tagline = .str t) ∧ (∃ cs, s.categories = some cs)

/-- A raw item is well formed when its name and tagline are strings and its categories
are an array none of whose elements is `null`; nothing is asked of the other fields
nor of the fields of the categories. -/
def WellFormed (s : RawItem) : Prop :=
  (∃ n, s.name = .str n) ∧ (∃ t, s.tagline = .str t) ∧
    (∃ cs, s.categories = some cs ∧ ∀ c ∈ cs, c ≠ none)

/-- The raw category a typed category stands for. -/
def Category.toRaw (c : Category) : RawCategory :=
  { id := .num c.id, name := .str c.name, type := .str c.type }

/-- The raw item a typed item stands for. -/
def Item.toRaw (s : Item) : RawItem :=
  { id := match s.id with
      | .num n => .num n
      | .str t => .str t
    name := .str s.name
    tagline := .str s.tagline
    logo := match s.logo with
      | none => .undefined
      | some l => .str l
    featured := .bool s.featured
    categories := some (s.categories.map (fun c => some c.toRaw)) }

/-- A raw item with an empty name, no logo and no categories. -/
def namelessRaw : RawItem :=
  { id := .num 5, name := .str [], tagline := .str (lit "untitled"), logo := .undefined,
    featured := .undefined, categories := some [] }

/-- A raw item with string name and tagline whose array of categories holds `null`. -/
def nullCategoryRaw : RawItem :=
  { id := .num 1, name := .str (lit "Zoom"), tagline := .str (lit "x"), logo := .undefined,
    featured := .undefined, categories := some [none] }

/-- A raw item whose name is missing. -/
def brokenRaw : RawItem :=
  { id := .num 6, name := .undefined, tagline := .str (lit "x"), logo := .undefined,
    featured := .undefined, categories := some [] }

/-! ## Reference formulations and example data -/

/-- The two filters of `filterAndRender` applied in the opposite order: categories
first, text second. -/
def applyFiltersSwapped (L : CaseFolding) (query : JSString) (selected : List JSNum)
    (allSoftware : List Item) : List Item :=
  let filtered := allSoftware
  let filtered := if selected.length > 0 then filtered.filter (catMatch selected) else filtered
  let filtered := if query ≠ [] then filtered.filter (textMatch L query) else filtered
  filtered

/-- The identifiers of the categories of an item, as numbers. -/
def catIdsOf (s : Item) : List JSNum := s.categories.map (fun c => some c.id)

/-- An item with its `featured` flag replaced. -/
def withFeatured (f : Item → Bool) (s : Item) : Item := { s with featured := f s }

/-- First item of the example collection. -/
def zoom : Item :=
  { id := .num 1, name := lit "Zoom", tagline := lit "video calls", logo := none,
    featured := false, categories := [{ id := 10, name := lit "Free", type := lit "cost" }] }

/-- Second item of the example collection. -/
def canvas : Item :=
  { id := .num 2, name := lit "Canvas", tagline := lit "LMS", logo := none,
    featured := false, categories := [{ id := 11, name := lit "Paid", type := lit "cost" }] }

/-- A loaded page over the example collection, with one check box per category. -/
def zoomCanvasPage (search : JSString) (checked10 checked11 : Bool) : Page :=
  { initialPage search
      [{ value := lit "10", checked := checked10, badge := some (lit "Free") },
       { value := lit "11", checked := checked11, badge := some (lit "Paid") }]
      (lit "") (lit "") (lit "") false with
    allSoftware := [zoom, canvas] }

/-- An item with every text field empty and no logo. -/
def blankItem : Item :=
  { id := .str [], name := [], tagline := [], logo := none, featured := false,
    categories := [] }

/-- An item with every text field empty and a one-unit logo address. -/
def blankLogoItem : Item :=
  { id := .str [], name := [], tagline := [], logo := some [0], featured := false,
    categories := [] }

/-- An item whose logo address holds double quotes. -/
def quotedLogoItem : Item :=
  { id := .num 3, name := lit "X", tagline := lit "",
    logo := some (lit "x\" onerror=\"alert(1)"), featured := false, categories := [] }

/-- An item whose name, tagline and badge label are made of markup characters. -/
def markupItem : Item :=
  { id := .num 7, name := lit "<b>&", tagline := lit "</div><script>", logo := none,
    featured := true, categories := [{ id := 1, name := lit "<i>", type := lit "cost" }] }

/-- Number of `<` (and equally of `>`) in the card of an item, read off the template:
ten in the fixed part, two or three in the logo part, two per badge, and those of
the identifier, which is inserted as it is. -/
def cardAngleCount (a : Nat) (s : Item) : Nat :=
  10 + s.id.toJSString.count a + (if logoPresent s then 3 else 2) +
    2 * (cardBadges s).length

/-- Unchecking the filter controls whose category id is `X` and running one immediate
recompute: the reference behaviour a chip click is compared with. -/
def uncheckThenRecompute (L : CaseFolding) (X : JSNum) (p : Page) : Page :=
  filterAndRender L
    { p with
      checkboxes := p.checkboxes.map
        (fun cb => if parseInt cb.value = X then { cb with checked := false } else cb) }

/-- A control value in canonical form: it is the decimal rendering of the number
`parseInt` reads from it, and that number is `NaN` or an integer below `2 ^ 53` in
absolute value, the range in which JavaScript numbers are exact. -/
def canonicalValue (v : JSString) : Bool :=
  decide (numToString (parseInt v) = v) &&
    match parseInt v with
    | none => true
    | some n => decide (n.natAbs < 2 ^ 53)

/-- A rendered page whose only filter control carries its id with a leading zero. -/
def leadingZeroPage : Page :=
  filterAndRender asciiFolding
    { initialPage (lit "")
        [{ value := lit "010", checked := true, badge := some (lit "Free") }]
        (lit "") (lit "") (lit "") false with
      allSoftware := [zoom, canvas] }

/-- Every pending timeout is the one whose handle `debounceTimer` holds. -/
def TimersOwned (p : Page) : Prop := ∀ t ∈ p.timers, p.debounceTimer = some t.id

/-- The debounce timer is pending with the full delay ahead, nothing has been
recomputed since the count `r`, and the controls and the collection are as given. -/
def Armed (r : Nat) (v : JSString) (cbs : List Checkbox) (all : List Item) (q : Page) : Prop :=
  ∃ h, q.timers = [{ id := h, due := q.now + 250 }] ∧ q.debounceTimer = some h ∧
    q.recomputes = r ∧ q.searchValue = v ∧ q.checkboxes = cbs ∧ q.allSoftware = all

/-- A burst of typing as a timed run: each entry is the delay since the previous
keystroke and the text the search box then holds. -/
def typing (keys : List (Nat × JSString)) : List (Nat × Event) :=
  keys.map (fun k => (k.1, Event.input k.2))

/-- The text left in the search box by a first keystroke and the ones after it. -/
def finalText (v : JSString) (keys : List (Nat × JSString)) : JSString :=
  (keys.map (fun k => k.2)).getLastD v

/-- The page after a first keystroke leaving `v` in the search box and the further
keystrokes `keys`. -/
def afterTyping (L : CaseFolding) (v : JSString) (keys : List (Nat × JSString)) (p : Page) : Page :=
  run L (typing keys) (handle L (.input v) p)

/-- Pages the script can be in: the page at start-up followed by any timed run of
events. -/
def Reachable (L : CaseFolding) (p : Page) : Prop :=
  ∃ (v : JSString) (cbs : List Checkbox) (g a c : JSString) (o : Bool)
    (es : List (Nat × Event)), p = run L es (initialPage v cbs g a c o)

/-- The Zoom/Canvas page as the script reaches it: start-up, then the request answered
after 30 ms with the two items. -/
def zoomCanvasLoaded : Page :=
  run asciiFolding [(30, Event.fetchSettled (.response true (some [zoom, canvas])))]
    (initialPage (lit "")
      [{ value := lit "10", checked := false, badge := some (lit "Free") },
       { value := lit "11", checked := false, badge := some (lit "Paid") }]
      (lit "") (lit "") (lit "") false)

/-- The `try` block of `fetchSoftware` once the request has settled: it throws when
`fetch` rejects, when the response is not `ok`, and when the body is not JSON;
otherwise it stores the collection and renders.  Nothing is written before a throw. -/
def fetchSoftwareTry (L : CaseFolding) (r : FetchOutcome) (p : Page) : Except JSString Page :=
  match r with
  | .rejected => .error (lit "TypeError: Failed to fetch")
  | .response false _ => .error (lit "Error: Failed to load")
  | .response true none => .error (lit "SyntaxError")
  | .response true (some items) => .ok (filterAndRender L { p with allSoftware := items })

/-- The function `fetchSoftware` as its caller sees it: the `try` block, and the
`catch` clause that writes the failure message into the grid. -/
def fetchSoftware (L : CaseFolding) (r : FetchOutcome) (p : Page) : Except JSString Page :=
  match fetchSoftwareTry L r p with
  | .ok q => .ok q
  | .error _ => .ok { p with grid := loadFailedHtml }

/-- The page at start-up with empty grid, chip and count areas. -/
def emptyStart : Page := initialPage (lit "") [] (lit "") (lit "") (lit "") false

/-- An item with a category outside the card allow-list ahead of one inside it. -/
def gradedItem : Item :=
  { id := .num 4, name := lit "Reader", tagline := lit "books", logo := none, featured := false,
    categories := [{ id := 20, name := lit "K-5", type := lit "grade" },
                   { id := 10, name := lit "Free", type := lit "cost" }] }

/-- A page without collection, with text in the search box and a box checked. -/
def emptyCatalogPage : Page :=
  initialPage (lit "zoo") [{ value := lit "10", checked := true, badge := some (lit "Free") }]
    (lit "") (lit "") (lit "") false

/-- The start tag of the card of an item. -/
def cardOpening (s : Item) : JSString :=
  lit "\n                <a href=\"/software/" ++ s.id.toJSString ++
  lit "\" class=\"software-card " ++ (if s.featured then lit "featured" else lit "") ++ lit "\">"

/-- The events whose listener recomputes at once without touching a timer: a check
box toggle, a chip click, the clear-filters action. -/
def Event.isImmediate : Event → Bool
  | .toggle _ => true
  | .chipClick _ => true
  | .clearFilters => true
  | _ => false

/-- The loaded Zoom/Canvas page after `z` has been typed: the debounce timer is
pending. -/
def zoomCanvasTyped : Page := handle asciiFolding (.input (lit "z")) zoomCanvasLoaded

/-- Number of places of `s` at which `pat` starts. -/
def occurrences (pat s : JSString) : Nat :=
  (s.tails.filter (fun t => pat.isPrefixOf t)).length

/-- The start of a link element, `<a `. -/
def linkPat : JSString := [0x3C, 0x61, 0x20]

/-- No `<` stands among the last two code units: no `<a ` can begin in the string and
end beyond it. -/
def linkSafe : JSString → Bool
  | [] => true
  | c :: s => if s.length < 2 then (c != 0x3C && linkSafe s) else linkSafe s

/-- An item that is not featured and whose identifier is a string holding markup. -/
def splitIdItem : Item :=
  { id := .str (lit "7\" class=\"featured\"></a><a href=\"/software/8"),
    name := lit "Split", tagline := lit "", logo := none, featured := false, categories := [] }

/-! ## Basic facts -/

theorem mem_foldl_insert {α : Type} [DecidableEq α] (xs acc : List α) (x : α) :
    x ∈ xs.foldl (fun acc x => if x ∈ acc then acc else acc ++ [x]) acc ↔ x ∈ acc ∨ x ∈ xs := by
  induction xs generalizing acc with
  | nil => simp
  | cons y ys ih =>
    rw [List.foldl_cons, ih]
    by_cases hy : y ∈ acc
    · rw [if_pos hy]
      constructor
      · rintro (h | h)
        · exact Or.inl h
        · exact Or.inr (List.mem_cons_of_mem _ h)
      · rintro (h | h)
        · exact Or.inl h
        · rcases List.mem_cons.mp h with rfl | h
          · exact Or.inl hy
          · exact Or.inr h
    · rw [if_neg hy]
      simp only [List.mem_append, List.mem_singleton, List.mem_cons]
      tauto

theorem mem_setOf {α : Type} [DecidableEq α] (xs : List α) (x : α) :
    x ∈ setOf xs ↔ x ∈ xs := by
  unfold setOf
  rw [mem_foldl_insert]
  simp

theorem setOf_eq_nil {α : Type} [DecidableEq α] (xs : List α) :
    setOf xs = [] ↔ xs = [] := by
  constructor
  · intro h
    rw [List.eq_nil_iff_forall_not_mem] at h ⊢
    intro a ha
    exact h a ((mem_setOf xs a).mpr ha)
  · rintro rfl
    rfl

theorem includes_iff (s q : JSString) : includes s q = true ↔ q <:+: s := by
  unfold includes
  rw [List.any_eq_true, List.infix_iff_prefix_suffix]
  constructor
  · rintro ⟨t, ht, hq⟩
    exact ⟨t, List.isPrefixOf_iff_prefix.mp hq, (List.mem_tails _ _).mp ht⟩
  · rintro ⟨t, hq, ht⟩
    exact ⟨t, (List.mem_tails _ _).mpr ht, List.isPrefixOf_iff_prefix.mpr hq⟩

theorem textMatch_iff (L : CaseFolding) (q : JSString) (s : Item) :
    textMatch L q s = true ↔ q <:+: L.toLowerCase s.name ∨ q <:+: L.toLowerCase s.tagline := by
  unfold textMatch
  rw [Bool.or_eq_true, includes_iff, includes_iff]

theorem catMatch_iff (C : List JSNum) (s : Item) :
    catMatch C s = true ↔ ∀ id ∈ C, id ∈ catIdsOf s := by
  unfold catMatch catIdsOf
  simp only [List.all_eq_true, decide_eq_true_eq, mem_setOf]

theorem catMatch_nil (s : Item) : catMatch [] s = true := by
  rw [catMatch_iff]
  intro id h
  cases h

theorem applyFilters_eq_filter (L : CaseFolding) (q : JSString) (C : List JSNum)
    (all : List Item) :
    applyFilters L q C all =
      all.filter (fun s => (decide (q = []) || textMatch L q s) &&
        (decide (C = []) || catMatch C s)) := by
  unfold applyFilters
  by_cases hq : q = [] <;> by_cases hC : C = []
  · subst hq; subst hC; simp
  · subst hq
    have : 0 < C.length := List.length_pos.mpr hC
    simp [hC, this]
  · subst hC; simp [hq]
  · have : 0 < C.length := List.length_pos.mpr hC
    simp [hq, hC, this, List.filter_filter, Bool.and_comm]

theorem mem_applyFilters (L : CaseFolding) (q : JSString) (C : List JSNum)
    (all : List Item) (s : Item) :
    s ∈ applyFilters L q C all ↔
      s ∈ all ∧ (q ≠ [] → textMatch L q s = true) ∧ (∀ id ∈ C, id ∈ catIdsOf s) := by
  rw [applyFilters_eq_filter, List.mem_filter]
  simp only [Bool.and_eq_true, Bool.or_eq_true, decide_eq_true_eq]
  constructor
  · rintro ⟨hs, ht, hc⟩
    refine ⟨hs, fun hq => ht.resolve_left hq, ?_⟩
    rcases hc with rfl | hc
    · intro id h
      cases h
    · exact (catMatch_iff C s).mp hc
  · rintro ⟨hs, ht, hc⟩
    refine ⟨hs, ?_, Or.inr ((catMatch_iff C s).mpr hc)⟩
    by_cases hq : q = []
    · exact Or.inl hq
    · exact Or.inr (ht hq)

theorem applyFilters_sublist (L : CaseFolding) (q : JSString) (C : List JSNum)
    (all : List Item) : (applyFilters L q C all).Sublist all := by
  rw [applyFilters_eq_filter]
  exact List.filter_sublist _

theorem selectedCats_eq_nil (cbs : List Checkbox) :
    selectedCats cbs = [] ↔ ∀ cb ∈ cbs, cb.checked = false := by
  unfold selectedCats
  rw [setOf_eq_nil, List.map_eq_nil_iff, List.filter_eq_nil_iff]
  simp

theorem mem_selectedCats (cbs : List Checkbox) (id : JSNum) :
    id ∈ selectedCats cbs ↔ ∃ cb ∈ cbs, cb.checked = true ∧ parseInt cb.value = id := by
  unfold selectedCats
  rw [mem_setOf, List.mem_map]
  simp only [List.mem_filter]
  constructor
  · rintro ⟨cb, ⟨h1, h2⟩, h3⟩
    exact ⟨cb, h1, h2, h3⟩
  · rintro ⟨cb, h1, h2, h3⟩
    exact ⟨cb, ⟨h1, h2⟩, h3⟩

theorem trim_whiteSpace (s : JSString) (h : ∀ c ∈ s, isWhiteSpace c = true) : trim s = [] := by
  have h1 : trimStart s = [] := by
    unfold trimStart
    rw [List.dropWhile_eq_nil_iff]
    exact h
  unfold trim
  rw [h1]
  rfl

theorem filterAndRender_grid (L : CaseFolding) (p : Page) :
    (filterAndRender L p).grid = gridHtml (filteredOf L p) := by
  unfold filterAndRender renderActiveFilters renderGrid filteredOf queryOf
  dsimp only
  split <;> rfl

theorem filterAndRender_catalogCount (L : CaseFolding) (p : Page) :
    (filterAndRender L p).catalogCount =
      countText (filteredOf L p).length p.allSoftware.length := by
  unfold filterAndRender renderActiveFilters renderGrid filteredOf queryOf
  dsimp only
  split <;> rfl

/-! ## The filter pipeline -/

/-- Claim C1: with an empty query, an item is in the list computed by
`filterAndRender` exactly when it belongs to the collection and every selected
category id is among the ids of its categories (all of them, not one of them); this
holds for an arbitrary selection and for the selection read from the check boxes.
An item without categories is dropped as soon as something is selected, and on the
Zoom/Canvas collection checking `11` keeps only Canvas while checking `10` and `11`
keeps nothing. -/
theorem category_filter_is_conjunctive :
    (∀ (L : CaseFolding) (all : List Item) (C : List JSNum) (s : Item),
      s ∈ applyFilters L [] C all ↔ s ∈ all ∧ ∀ id ∈ C, id ∈ catIdsOf s) ∧
    (∀ (L : CaseFolding) (p : Page) (s : Item), queryOf L p = [] →
      (s ∈ filteredOf L p ↔
        s ∈ p.allSoftware ∧
          ∀ cb ∈ p.checkboxes, cb.checked = true → parseInt cb.value ∈ catIdsOf s)) ∧
    (∀ (L : CaseFolding) (all : List Item) (C : List JSNum) (s : Item),
      C ≠ [] → s.categories = [] → s ∉ applyFilters L [] C all) ∧
    filteredOf asciiFolding (zoomCanvasPage (lit "") false true) = [canvas] ∧
    filteredOf asciiFolding (zoomCanvasPage (lit "") true true) = [] := by
  refine ⟨?_, ?_, ?_, by decide, by decide⟩
  · intro L all C s
    rw [mem_applyFilters]
    constructor
    · rintro ⟨h1, _, h3⟩
      exact ⟨h1, h3⟩
    · rintro ⟨h1, h3⟩
      exact ⟨h1, fun h => absurd rfl h, h3⟩
  · intro L p s hq
    unfold filteredOf
    rw [hq, mem_applyFilters]
    constructor
    · rintro ⟨h1, _, h3⟩
      refine ⟨h1, fun cb hcb hck => ?_⟩
      exact h3 _ ((mem_selectedCats _ _).mpr ⟨cb, hcb, hck, rfl⟩)
    · rintro ⟨h1, h3⟩
      refine ⟨h1, fun h => absurd rfl h, fun id hid => ?_⟩
      obtain ⟨cb, hcb, hck, rfl⟩ := (mem_selectedCats _ _).mp hid
      exact h3 cb hcb hck
  · intro L all C s hC hs hmem
    rw [mem_applyFilters] at hmem
    obtain ⟨id, hid⟩ := List.exists_mem_of_ne_nil C hC
    have := hmem.2.2 id hid
    unfold catIdsOf at this
    rw [hs] at this
    cases this

/-- Claim C2: when the lower-cased, trimmed search text `q` is not empty and no check
box is checked, an item is in the list computed by `filterAndRender` exactly when it
belongs to the collection and `q` occurs in its lower-cased name or in its
lower-cased tagline; on the Zoom/Canvas collection the query `zoo` keeps only
Zoom. -/
theorem text_filter_is_substring_match :
    (∀ (L : CaseFolding) (p : Page) (s : Item),
      queryOf L p ≠ [] → (∀ cb ∈ p.checkboxes, cb.checked = false) →
      (s ∈ filteredOf L p ↔
        s ∈ p.allSoftware ∧
          (queryOf L p <:+: L.toLowerCase s.name ∨
            queryOf L p <:+: L.toLowerCase s.tagline))) ∧
    filteredOf asciiFolding (zoomCanvasPage (lit "zoo") false false) = [zoom] := by
  refine ⟨?_, by decide⟩
  intro L p s hq hsel
  unfold filteredOf
  rw [(selectedCats_eq_nil _).mpr hsel, mem_applyFilters, ← textMatch_iff]
  constructor
  · rintro ⟨h1, h2, _⟩
    exact ⟨h1, h2 hq⟩
  · rintro ⟨h1, h2⟩
    refine ⟨h1, fun _ => h2, ?_⟩
    intro id h
    cases h

/-- Instance of claim C2 on the Zoom/Canvas collection with `" ZOO "` typed in the
search box: the query is `zoo`, and Zoom is kept because `zoo` occurs in its
lower-cased name. -/
theorem text_filter_zoo :
    queryOf asciiFolding (zoomCanvasPage (lit " ZOO ") false false) = lit "zoo" ∧
    (zoom ∈ filteredOf asciiFolding (zoomCanvasPage (lit " ZOO ") false false) ↔
      zoom ∈ (zoomCanvasPage (lit " ZOO ") false false).allSoftware ∧
        (queryOf asciiFolding (zoomCanvasPage (lit " ZOO ") false false)
            <:+: asciiFolding.toLowerCase zoom.name ∨
          queryOf asciiFolding (zoomCanvasPage (lit " ZOO ") false false)
            <:+: asciiFolding.toLowerCase zoom.tagline)) :=
  ⟨by decide,
    text_filter_is_substring_match.1 asciiFolding (zoomCanvasPage (lit " ZOO ") false false)
      zoom (by decide) (by decide)⟩

/-- Claim C3: the list computed by `filterAndRender` is the collection restricted to
the items passing every active predicate; with a non-empty query and a non-empty
selection an item is kept exactly when it passes the text predicate and the category
predicate, and running the two filters in the opposite order gives the same list. -/
theorem filters_intersect_and_commute :
    (∀ (L : CaseFolding) (q : JSString) (C : List JSNum) (all : List Item),
      applyFilters L q C all =
        all.filter (fun s => (decide (q = []) || textMatch L q s) &&
          (decide (C = []) || catMatch C s))) ∧
    (∀ (L : CaseFolding) (q : JSString) (C : List JSNum) (all : List Item) (s : Item),
      q ≠ [] → C ≠ [] →
      (s ∈ applyFilters L q C all ↔
        s ∈ all ∧
          (q <:+: L.toLowerCase s.name ∨ q <:+: L.toLowerCase s.tagline) ∧
          (∀ id ∈ C, id ∈ catIdsOf s))) ∧
    (∀ (L : CaseFolding) (q : JSString) (C : List JSNum) (all : List Item),
      applyFilters L q C all = applyFiltersSwapped L q C all) ∧
    (∀ (L : CaseFolding) (p : Page),
      (filterAndRender L p).grid =
        gridHtml (applyFilters L (queryOf L p) (selectedCats p.checkboxes) p.allSoftware)) := by
  refine ⟨applyFilters_eq_filter, ?_, ?_, ?_⟩
  · intro L q C all s hq _
    rw [mem_applyFilters, ← textMatch_iff]
    constructor
    · rintro ⟨h1, h2, h3⟩
      exact ⟨h1, h2 hq, h3⟩
    · rintro ⟨h1, h2, h3⟩
      exact ⟨h1, fun _ => h2, h3⟩
  · intro L q C all
    unfold applyFilters applyFiltersSwapped
    dsimp only
    split <;> split
    · rw [List.filter_filter, List.filter_filter]
      congr 1
      funext s
      exact Bool.and_comm _ _
    · rfl
    · rfl
    · rfl
  · intro L p
    exact filterAndRender_grid L p

/-- Instance of claim C3: with the query `a` and category `11` checked on the
Zoom/Canvas collection, Canvas passes both predicates and is kept, Zoom passes only
the text predicate and is dropped. -/
theorem filters_intersect_example :
    (canvas ∈ applyFilters asciiFolding (lit "a") [some 11] [zoom, canvas] ↔
      canvas ∈ [zoom, canvas] ∧
        (lit "a" <:+: asciiFolding.toLowerCase canvas.name ∨
          lit "a" <:+: asciiFolding.toLowerCase canvas.tagline) ∧
        (∀ id ∈ [(some 11 : JSNum)], id ∈ catIdsOf canvas)) ∧
    applyFilters asciiFolding (lit "a") [some 11] [zoom, canvas] = [canvas] :=
  ⟨filters_intersect_and_commute.2.1 asciiFolding (lit "a") [some 11] [zoom, canvas] canvas
    (by decide) (by decide), by decide⟩

/-- Claim C4: when the search text is empty or made of white space only and no check
box is checked, the list computed by `filterAndRender` is the whole collection, same
items in the same order, and that is what the grid shows. -/
theorem identity_filter (L : CaseFolding) (p : Page)
    (hws : ∀ c ∈ p.searchValue, isWhiteSpace c = true)
    (hsel : ∀ cb ∈ p.checkboxes, cb.checked = false) :
    queryOf L p = [] ∧ filteredOf L p = p.allSoftware ∧
      (filterAndRender L p).grid = gridHtml p.allSoftware := by
  have hq : queryOf L p = [] := by
    unfold queryOf
    rw [L.whiteSpace_fixed _ hws]
    exact trim_whiteSpace _ hws
  have hf : filteredOf L p = p.allSoftware := by
    unfold filteredOf
    rw [hq, (selectedCats_eq_nil _).mpr hsel]
    rfl
  exact ⟨hq, hf, by rw [filterAndRender_grid, hf]⟩

/-- Instance of claim C4: a search box holding two blanks and a tab, nothing checked,
on the Zoom/Canvas collection. -/
theorem identity_filter_example :
    queryOf asciiFolding (zoomCanvasPage [0x20, 0x09, 0x20] false false) = [] ∧
    filteredOf asciiFolding (zoomCanvasPage [0x20, 0x09, 0x20] false false) = [zoom, canvas] ∧
    (filterAndRender asciiFolding (zoomCanvasPage [0x20, 0x09, 0x20] false false)).grid =
      gridHtml [zoom, canvas] :=
  identity_filter asciiFolding (zoomCanvasPage [0x20, 0x09, 0x20] false false)
    (by decide) (by decide)

theorem textMatch_withFeatured (L : CaseFolding) (q : JSString) (f : Item → Bool) (s : Item) :
    textMatch L q (withFeatured f s) = textMatch L q s := rfl

theorem catMatch_withFeatured (C : List JSNum) (f : Item → Bool) (s : Item) :
    catMatch C (withFeatured f s) = catMatch C s := rfl

/-- Claim C5: the list computed by `filterAndRender` is a sub-sequence of the
collection (the survivors keep their relative order and nothing is added), no item
occurs in it more often than in the collection, and the `featured` flags play no
part: changing them changes neither which items survive nor where they stand. -/
theorem filter_is_order_preserving :
    (∀ (L : CaseFolding) (q : JSString) (C : List JSNum) (all : List Item),
      (applyFilters L q C all).Sublist all) ∧
    (∀ (L : CaseFolding) (p : Page), (filteredOf L p).Sublist p.allSoftware) ∧
    (∀ (L : CaseFolding) (q : JSString) (C : List JSNum) (all : List Item) (s : Item),
      (applyFilters L q C all).count s ≤ all.count s) ∧
    (∀ (L : CaseFolding) (q : JSString) (C : List JSNum) (all : List Item)
        (f : Item → Bool),
      applyFilters L q C (all.map (withFeatured f)) =
        (applyFilters L q C all).map (withFeatured f)) := by
  refine ⟨applyFilters_sublist, fun L p => applyFilters_sublist _ _ _ _, ?_, ?_⟩
  · intro L q C all s
    exact (applyFilters_sublist L q C all).count_le s
  · intro L q C all f
    rw [applyFilters_eq_filter, applyFilters_eq_filter, List.filter_map]
    rfl

/-- Claim C9: after a run of `filterAndRender` the count text is the decimal length of
the filtered list, `" of "`, the decimal length of the whole collection and
`" items"`; the collection is the one held before the run, whatever the filters; and
the first number is at most the second. -/
theorem count_text_after_recompute :
    (∀ (L : CaseFolding) (p : Page),
      (filterAndRender L p).catalogCount =
          lit (toString (filteredOf L p).length) ++ lit " of " ++
            lit (toString p.allSoftware.length) ++ lit " items" ∧
        0 ≤ (filteredOf L p).length ∧
        (filteredOf L p).length ≤ p.allSoftware.length ∧
        (filterAndRender L p).allSoftware = p.allSoftware) ∧
    (filterAndRender asciiFolding (zoomCanvasPage (lit "zoo") false false)).catalogCount =
      lit "1 of 2 items" := by
  refine ⟨?_, by decide⟩
  intro L p
  refine ⟨filterAndRender_catalogCount L p, Nat.zero_le _,
    (applyFilters_sublist _ _ _ _).length_le, ?_⟩
  unfold filterAndRender renderActiveFilters renderGrid
  dsimp only
  split <;> rfl

/-! ## Escaping -/

theorem escapeHtml_none : escapeHtml none = [] := rfl
theorem escapeHtml_nil : escapeHtml (some []) = [] := rfl
theorem escapeHtml_cons (c : Nat) (s : JSString) :
    escapeHtml (some (c :: s)) = escapeUnit c ++ escapeHtml (some s) := rfl

theorem escapeUnit_cases (c : Nat) :
    (escapeUnit c = [c] ∧ c ≠ 0x26 ∧ c ≠ 0x3C ∧ c ≠ 0x3E) ∨
      escapeUnit c = 0x26 :: lit "amp;" ∨ escapeUnit c = 0x26 :: lit "nbsp;" ∨
      escapeUnit c = 0x26 :: lit "lt;" ∨ escapeUnit c = 0x26 :: lit "gt;" := by
  unfold escapeUnit
  split
  · right; left; rfl
  · split
    · right; right; left; rfl
    · split
      · right; right; right; left; rfl
      · split
        · right; right; right; right; rfl
        · left
          exact ⟨rfl, by assumption, by assumption, by assumption⟩

theorem escapeUnit_no_angle (c d : Nat) (h : d ∈ escapeUnit c) : d ≠ 0x3C ∧ d ≠ 0x3E := by
  rcases escapeUnit_cases c with ⟨h1, _, h3, h4⟩ | h1 | h1 | h1 | h1
  · rw [h1, List.mem_singleton] at h
    subst h
    exact ⟨h3, h4⟩
  all_goals
    rw [h1] at h
    revert d
    decide

theorem escapeHtml_no_angle (str : Option JSString) (d : Nat) (h : d ∈ escapeHtml str) :
    d ≠ 0x3C ∧ d ≠ 0x3E := by
  unfold escapeHtml at h
  rw [List.mem_flatMap] at h
  obtain ⟨c, _, hc⟩ := h
  exact escapeUnit_no_angle c d hc

theorem split_after {α : Type} (t pre rest post : List α) (a : α) (ha : a ∉ t)
    (h : pre ++ a :: post = t ++ rest) : ∃ pre2, pre = t ++ pre2 ∧ rest = pre2 ++ a :: post := by
  induction t generalizing pre with
  | nil => exact ⟨pre, rfl, h.symm⟩
  | cons x t ih =>
    cases pre with
    | nil =>
      exfalso
      rw [List.nil_append, List.cons_append] at h
      exact ha (by rw [(List.cons.inj h).1]; exact List.mem_cons_self _ _)
    | cons y pre =>
      rw [List.cons_append, List.cons_append] at h
      obtain ⟨hxy, h⟩ := List.cons.inj h
      obtain ⟨pre2, h1, h2⟩ := ih pre (fun hm => ha (List.mem_cons_of_mem _ hm)) h
      exact ⟨pre2, by rw [hxy, h1, List.cons_append], h2⟩

theorem escapeHtml_ampersand (s : JSString) (pre post : JSString)
    (h : escapeHtml (some s) = pre ++ 0x26 :: post) :
    lit "amp;" <+: post ∨ lit "nbsp;" <+: post ∨ lit "lt;" <+: post ∨ lit "gt;" <+: post := by
  induction s generalizing pre with
  | nil =>
    rw [escapeHtml_nil] at h
    cases pre <;> cases h
  | cons c s ih =>
    rw [escapeHtml_cons] at h
    have key : ∀ e : JSString, 0x26 ∉ e → escapeUnit c = 0x26 :: e →
        e <+: post ∨ ∃ pre2, escapeHtml (some s) = pre2 ++ 0x26 :: post := by
      intro e he hc
      rw [hc] at h
      cases pre with
      | nil =>
        rw [List.nil_append, List.cons_append] at h
        left
        exact ⟨_, (List.cons.inj h).2⟩
      | cons y pre =>
        rw [List.cons_append, List.cons_append] at h
        obtain ⟨pre2, _, h2⟩ := split_after e pre _ post 0x26 he (List.cons.inj h.symm).2
        exact Or.inr ⟨pre2, h2⟩
    rcases escapeUnit_cases c with ⟨h1, h2, _, _⟩ | h1 | h1 | h1 | h1
    · rw [h1] at h
      obtain ⟨pre2, _, h4⟩ := split_after [c] pre _ post 0x26
        (by rw [List.mem_singleton]; exact fun h => h2 h.symm) h.symm
      exact ih pre2 h4
    · rcases key _ (by decide) h1 with h | ⟨pre2, h⟩
      · exact Or.inl h
      · exact ih pre2 h
    · rcases key _ (by decide) h1 with h | ⟨pre2, h⟩
      · exact Or.inr (Or.inl h)
      · exact ih pre2 h
    · rcases key _ (by decide) h1 with h | ⟨pre2, h⟩
      · exact Or.inr (Or.inr (Or.inl h))
      · exact ih pre2 h
    · rcases key _ (by decide) h1 with h | ⟨pre2, h⟩
      · exact Or.inr (Or.inr (Or.inr h))
      · exact ih pre2 h


theorem escapeHtml_count_angle (a : Nat) (ha : a = 0x3C ∨ a = 0x3E) (str : Option JSString) :
    (escapeHtml str).count a = 0 := by
  rw [List.count_eq_zero]
  intro h
  have := escapeHtml_no_angle str a h
  rcases ha with rfl | rfl
  · exact this.1 rfl
  · exact this.2 rfl

theorem badgeHtml_count_angle (a : Nat) (ha : a = 0x3C ∨ a = 0x3E) (c : Category)
    (hc : c.type ∈ CARD_BADGE_TYPES) : (badgeHtml c).count a = 2 := by
  have base : (badgeHtml { id := 0, name := [], type := [] }).count a = 2 := by
    rcases ha with rfl | rfl <;> decide
  have ht : c.type.count a = 0 := by
    revert hc
    generalize c.type = t
    intro hc
    have : ∀ t ∈ CARD_BADGE_TYPES, t.count a = 0 := by
      rcases ha with rfl | rfl <;> decide
    exact this t hc
  have he := escapeHtml_count_angle a ha (some c.name)
  unfold badgeHtml at base ⊢
  simp only [List.count_append, escapeHtml_nil, List.count_nil] at base ⊢
  omega

theorem badges_count_angle (a : Nat) (ha : a = 0x3C ∨ a = 0x3E) (l : List Category)
    (hl : ∀ c ∈ l, c.type ∈ CARD_BADGE_TYPES) : ((l.map badgeHtml).flatten).count a = 2 * l.length := by
  induction l with
  | nil => rfl
  | cons c l ih =>
    rw [List.map_cons, List.flatten_cons, List.count_append,
      badgeHtml_count_angle a ha c (hl c (List.mem_cons_self _ _)),
      ih (fun d hd => hl d (List.mem_cons_of_mem _ hd)), List.length_cons]
    omega

theorem badgesHtml_count_angle (a : Nat) (ha : a = 0x3C ∨ a = 0x3E) (s : Item) :
    (badgesHtml s).count a = 2 * (cardBadges s).length := by
  unfold badgesHtml
  apply badges_count_angle a ha
  intro c hc
  unfold cardBadges at hc
  rw [List.mem_filter, decide_eq_true_eq] at hc
  exact hc.2

theorem logoHtml_count_angle (a : Nat) (ha : a = 0x3C ∨ a = 0x3E) (s : Item) :
    (logoHtml s).count a = if logoPresent s then 3 else 2 := by
  have base1 : (logoHtml blankLogoItem).count a = 3 := by
    rcases ha with rfl | rfl <;> decide
  have base2 : (logoHtml blankItem).count a = 2 := by
    rcases ha with rfl | rfl <;> decide
  have h1 := escapeHtml_count_angle a ha s.logo
  have h2 := escapeHtml_count_angle a ha (firstUnit s.name)
  have h3 := escapeHtml_count_angle a ha blankLogoItem.logo
  have h4 := escapeHtml_count_angle a ha (firstUnit blankLogoItem.name)
  have h5 := escapeHtml_count_angle a ha (firstUnit blankItem.name)
  unfold logoHtml at base1 base2 ⊢
  by_cases hp : logoPresent s = true
  · rw [if_pos hp, if_pos hp]
    rw [if_pos (by rfl)] at base1
    simp only [List.count_append] at base1 ⊢
    omega
  · rw [if_neg hp, if_neg hp]
    rw [if_neg (by decide)] at base2
    simp only [List.count_append] at base2 ⊢
    omega

set_option maxRecDepth 4096 in
theorem cardHtml_blank_count (a : Nat) (ha : a = 0x3C ∨ a = 0x3E) :
    (cardHtml blankItem).count a = 12 := by
  rcases ha with rfl | rfl <;> decide

theorem cardHtml_count_angle (a : Nat) (ha : a = 0x3C ∨ a = 0x3E) (s : Item) :
    (cardHtml s).count a = cardAngleCount a s := by
  unfold cardAngleCount
  have base := cardHtml_blank_count a ha
  have h1 := escapeHtml_count_angle a ha (some s.name)
  have h2 := escapeHtml_count_angle a ha (some s.tagline)
  have h3 := escapeHtml_count_angle a ha (some blankItem.name)
  have h3b := escapeHtml_count_angle a ha (some blankItem.tagline)
  have h4 := logoHtml_count_angle a ha s
  have h5 := logoHtml_count_angle a ha blankItem
  have h6 := badgesHtml_count_angle a ha s
  have h7 := badgesHtml_count_angle a ha blankItem
  have h8 : (lit "featured").count a = 0 := by
    rcases ha with rfl | rfl <;> decide
  have h9 : (lit "").count a = 0 := rfl
  have h10 : (if s.featured = true then lit "featured" else lit "").count a = 0 := by
    split <;> assumption
  have h10b : (if blankItem.featured = true then lit "featured" else lit "").count a = 0 := h9
  rw [if_neg (by decide)] at h5
  have h11 : (cardBadges blankItem).length = 0 := rfl
  have h12 : blankItem.id.toJSString.count a = 0 := rfl
  unfold cardHtml at base ⊢
  simp only [List.count_append] at base ⊢
  omega


theorem escapeUnit_count_quote (c : Nat) :
    (escapeUnit c).count 0x22 = if c = 0x22 then 1 else 0 := by
  unfold escapeUnit
  split
  · subst c; decide
  · split
    · subst c; decide
    · split
      · subst c; decide
      · split
        · subst c; decide
        · by_cases h : c = 0x22
          · subst c; decide
          · rw [if_neg h, List.count_singleton]
            simp [h]

theorem escapeHtml_count_quote (str : JSString) :
    (escapeHtml (some str)).count 0x22 = str.count 0x22 := by
  induction str with
  | nil => rfl
  | cons c s ih =>
    rw [escapeHtml_cons, List.count_append, ih, escapeUnit_count_quote, List.count_cons]
    by_cases h : c = 0x22
    · subst c
      rw [if_pos rfl, if_pos (by rfl)]
      omega
    · rw [if_neg h, if_neg (by rw [beq_iff_eq]; exact h)]
      omega

/-- Claim C6, evaluated on the code: `escapeHtml` leaves every double quote of its
argument in place, so a logo address holding `"` ends the `src` attribute of the card
and the rest of the address is read as further attributes; the item identifier
reaches the `href` without passing through `escapeHtml` at all. -/
theorem double_quote_reaches_markup :
    (∀ str : JSString, (escapeHtml (some str)).count 0x22 = str.count 0x22) ∧
    escapeHtml quotedLogoItem.logo = lit "x\" onerror=\"alert(1)" ∧
    lit "<img class=\"card-logo\" src=\"x\" onerror=\"alert(1)\" alt=\"\""
      <+: logoHtml quotedLogoItem ∧
    badgeHtml { id := 1, name := lit "a\" b=\"c", type := lit "cost" } =
      lit "<span class=\"badge badge-cost\" data-name=\"a\" b=\"c\">a\" b=\"c</span>" ∧
    (∀ s : Item, lit "\n                <a href=\"/software/" ++ s.id.toJSString <+: cardHtml s) := by
  refine ⟨escapeHtml_count_quote, by decide, by decide, by decide, ?_⟩
  intro s
  unfold cardHtml
  simp only [List.append_assoc]
  exact ⟨_, rfl⟩

/-- Claim C7: whatever `escapeHtml` returns holds no `<` and no `>`, and every `&` in it
starts one of the references `&amp;`, `&nbsp;`, `&lt;`, `&gt;`; the fallback glyph,
the name, the tagline and the badge labels reach the card only through `escapeHtml`,
so the number of `<` and of `>` in a card, and in the grid, is fixed by the template,
the identifier, the presence of a logo and the number of badges, whatever those
fields hold. -/
theorem text_fields_are_escaped :
    (∀ (str : Option JSString) (d : Nat), d ∈ escapeHtml str → d ≠ 0x3C ∧ d ≠ 0x3E) ∧
    (∀ (str : Option JSString) (pre post : JSString),
      escapeHtml str = pre ++ 0x26 :: post →
        lit "amp;" <+: post ∨ lit "nbsp;" <+: post ∨ lit "lt;" <+: post ∨
          lit "gt;" <+: post) ∧
    (∀ s : Item, (cardHtml s).count 0x3C = cardAngleCount 0x3C s ∧
      (cardHtml s).count 0x3E = cardAngleCount 0x3E s) ∧
    (∀ items : List Item, items ≠ [] →
      (gridHtml items).count 0x3C = (items.map (cardAngleCount 0x3C)).sum ∧
      (gridHtml items).count 0x3E = (items.map (cardAngleCount 0x3E)).sum) := by
  refine ⟨escapeHtml_no_angle, ?_, ?_, ?_⟩
  · intro str pre post h
    cases str with
    | none =>
      rw [escapeHtml_none] at h
      cases pre <;> cases h
    | some s => exact escapeHtml_ampersand s pre post h
  · intro s
    exact ⟨cardHtml_count_angle _ (Or.inl rfl) s, cardHtml_count_angle _ (Or.inr rfl) s⟩
  · intro items hne
    have hlen : ¬ items.length = 0 := fun h => hne (List.length_eq_zero.mp h)
    have key : ∀ (a : Nat), a = 0x3C ∨ a = 0x3E → ∀ l : List Item,
        ((l.map cardHtml).flatten).count a = (l.map (cardAngleCount a)).sum := by
      intro a ha l
      induction l with
      | nil => rfl
      | cons s l ih =>
        rw [List.map_cons, List.flatten_cons, List.count_append, ih, List.map_cons,
          List.sum_cons, cardHtml_count_angle a ha s]
    unfold gridHtml
    rw [if_neg hlen]
    exact ⟨key _ (Or.inl rfl) items, key _ (Or.inr rfl) items⟩

/-- Instance of claim C7: a name, tagline and badge label made of markup characters
leave the card of `markupItem` with the twelve `<` of the template plus two for its
one badge, and the name is shown through its references. -/
theorem text_fields_are_escaped_example :
    (cardHtml markupItem).count 0x3C = 14 ∧
    escapeHtml (some (lit "<b>&")) = lit "&lt;b&gt;&amp;" :=
  ⟨(text_fields_are_escaped.2.2.1 _).1.trans (by decide), by decide⟩


/-! ## Chips -/

theorem filterAndRender_checkboxes (L : CaseFolding) (p : Page) :
    (filterAndRender L p).checkboxes = p.checkboxes := by
  unfold filterAndRender renderActiveFilters renderGrid
  dsimp only
  split <;> rfl

theorem labelsOf_eq_nil_of_selected_nil (cbs : List Checkbox) (h : (selectedCats cbs).length = 0) :
    labelsOf cbs = [] := by
  have h1 : selectedCats cbs = [] := List.length_eq_zero.mp h
  rw [selectedCats_eq_nil] at h1
  unfold labelsOf
  rw [List.map_eq_nil_iff, List.filter_eq_nil_iff]
  intro cb hcb
  rw [h1 cb hcb]
  decide

theorem filterAndRender_chips (L : CaseFolding) (p : Page) :
    (filterAndRender L p).chips = (labelsOf p.checkboxes).map (fun l => numToString l.id) := by
  unfold filterAndRender renderActiveFilters renderGrid
  dsimp only
  split
  · rename_i h
    rw [labelsOf_eq_nil_of_selected_nil _ h]
    rfl
  · rfl

/-- Outside the data model, where a control carries something else than the rendering
of its id, the string test of the chip listener and the parsed id part ways: with the
value `010` the chip carries `data-id="10"` and clicking it leaves the control
checked. -/
theorem chip_click_leading_zero :
    leadingZeroPage.chips = [lit "10"] ∧
    (labelsOf leadingZeroPage.checkboxes).map (fun l => l.id) = [some 10] ∧
    (handle asciiFolding (.chipClick 0) leadingZeroPage).checkboxes =
      [{ value := lit "010", checked := true, badge := some (lit "Free") }] ∧
    (uncheckThenRecompute asciiFolding (some 10) leadingZeroPage).checkboxes =
      [{ value := lit "010", checked := false, badge := some (lit "Free") }] ∧
    handle asciiFolding (.chipClick 0) leadingZeroPage ≠
      uncheckThenRecompute asciiFolding (some 10) leadingZeroPage := by
  have h1 : leadingZeroPage.chips = [lit "10"] := by
    unfold leadingZeroPage
    rw [filterAndRender_chips]
    decide
  have h2 : leadingZeroPage.checkboxes =
      [{ value := lit "010", checked := true, badge := some (lit "Free") }] := by
    unfold leadingZeroPage
    rw [filterAndRender_checkboxes]
    rfl
  have h3 : (handle asciiFolding (.chipClick 0) leadingZeroPage).checkboxes =
      [{ value := lit "010", checked := true, badge := some (lit "Free") }] := by
    unfold handle
    simp only [h1, List.getElem?_cons_zero]
    unfold onChipClick
    rw [filterAndRender_checkboxes]
    simp only [h2]
    decide
  have h4 : (uncheckThenRecompute asciiFolding (some 10) leadingZeroPage).checkboxes =
      [{ value := lit "010", checked := false, badge := some (lit "Free") }] := by
    unfold uncheckThenRecompute
    rw [filterAndRender_checkboxes]
    simp only [h2]
    decide
  refine ⟨h1, ?_, h3, h4, ?_⟩
  · rw [h2]
    decide
  · intro h
    have := congrArg Page.checkboxes h
    rw [h3, h4] at this
    exact absurd this (by decide)

/-- Claim C8: on a page whose chips are those of the current check box state, take the
chip at index `i`, of category id `X`.  The filter controls carry category identifiers
as values: the checked controls of id `X` hold the decimal rendering of `X`
(`canonicalValue`).  Then clicking the chip gives the very page obtained by unchecking
the controls of id `X` and running `filterAndRender` once, so check boxes, grid, chips
and count agree; the check boxes after the click are the former ones with exactly the
controls of id `X` unchecked.  Nothing is asked of the other controls. -/
theorem chip_click_unchecks_its_control (L : CaseFolding) (p : Page) (i : Nat) (l : Label)
    (hchips : p.chips = (labelsOf p.checkboxes).map (fun l => numToString l.id))
    (hi : (labelsOf p.checkboxes)[i]? = some l)
    (hval : ∀ cb ∈ p.checkboxes, cb.checked = true → parseInt cb.value = l.id →
      canonicalValue cb.value = true) :
    handle L (.chipClick i) p = uncheckThenRecompute L l.id p ∧
    (handle L (.chipClick i) p).checkboxes =
      p.checkboxes.map
        (fun cb => if parseInt cb.value = l.id then { cb with checked := false } else cb) := by
  have hcanon : ∀ cb ∈ p.checkboxes, cb.checked = true → parseInt cb.value = l.id →
      cb.value = numToString l.id := by
    intro cb hcb hck hid
    have := hval cb hcb hck hid
    unfold canonicalValue at this
    rw [Bool.and_eq_true, decide_eq_true_eq] at this
    rw [← hid]
    exact this.1.symm
  have hl : l ∈ labelsOf p.checkboxes := List.getElem?_mem hi
  unfold labelsOf at hl
  rw [List.mem_map] at hl
  obtain ⟨cb0, hcb0, hl0⟩ := hl
  have hck0 : cb0.checked = true := (List.mem_filter.mp hcb0).2
  have hcb0 : cb0 ∈ p.checkboxes := (List.mem_filter.mp hcb0).1
  have hid0 : parseInt cb0.value = l.id := by rw [← hl0]
  have hv0 : cb0.value = numToString l.id := hcanon cb0 hcb0 hck0 hid0
  have hchip : p.chips[i]? = some (numToString l.id) := by
    rw [hchips, List.getElem?_map, hi]
    rfl
  have hmap : p.checkboxes.map
        (fun cb => if cb.value = numToString l.id then { cb with checked := false } else cb) =
      p.checkboxes.map
        (fun cb => if parseInt cb.value = l.id then { cb with checked := false } else cb) := by
    apply List.map_congr_left
    intro cb hcb
    cases hck : cb.checked with
    | false =>
      have hsame : ({ cb with checked := false } : Checkbox) = cb := by
        cases cb
        simp only [Checkbox.mk.injEq, true_and, and_true]
        exact hck.symm
      rw [hsame, ite_self, ite_self]
    | true =>
      by_cases h : cb.value = numToString l.id
      · have hp : parseInt cb.value = l.id := by rw [h, ← hv0, hid0]
        rw [if_pos h, if_pos hp]
      · have hp : ¬ parseInt cb.value = l.id := fun hp => h (hcanon cb hcb hck hp)
        rw [if_neg h, if_neg hp]
  have hmain : handle L (.chipClick i) p = uncheckThenRecompute L l.id p := by
    unfold handle
    simp only [hchip]
    unfold onChipClick uncheckThenRecompute
    simp only [hmap]
  refine ⟨hmain, ?_⟩
  rw [hmain]
  unfold uncheckThenRecompute
  rw [filterAndRender_checkboxes]

/-- Instance of claim C8 on the Zoom/Canvas page with both categories checked: the
first chip is the one of category `10`, and clicking it unchecks that control and no
other. -/
theorem chip_click_example :
    (handle asciiFolding (.chipClick 0)
        (filterAndRender asciiFolding (zoomCanvasPage (lit "") true true)) =
      uncheckThenRecompute asciiFolding (some 10)
        (filterAndRender asciiFolding (zoomCanvasPage (lit "") true true))) ∧
    (handle asciiFolding (.chipClick 0)
        (filterAndRender asciiFolding (zoomCanvasPage (lit "") true true))).checkboxes =
      [{ value := lit "10", checked := false, badge := some (lit "Free") },
       { value := lit "11", checked := true, badge := some (lit "Paid") }] := by
  have h := chip_click_unchecks_its_control asciiFolding
    (filterAndRender asciiFolding (zoomCanvasPage (lit "") true true)) 0
    { id := some 10, name := lit "Free" }
    (by rw [filterAndRender_chips, filterAndRender_checkboxes])
    (by rw [filterAndRender_checkboxes]; decide)
    (by rw [filterAndRender_checkboxes]; decide)
  refine ⟨h.1, ?_⟩
  rw [h.2, filterAndRender_checkboxes]
  decide

/-! ## Debounce -/

theorem filterAndRender_fields (L : CaseFolding) (p : Page) :
    (filterAndRender L p).timers = p.timers ∧
    (filterAndRender L p).debounceTimer = p.debounceTimer ∧
    (filterAndRender L p).now = p.now ∧
    (filterAndRender L p).nextTimer = p.nextTimer ∧
    (filterAndRender L p).searchValue = p.searchValue ∧
    (filterAndRender L p).allSoftware = p.allSoftware ∧
    (filterAndRender L p).recomputes = p.recomputes + 1 := by
  unfold filterAndRender renderActiveFilters renderGrid
  dsimp only
  split <;> exact ⟨rfl, rfl, rfl, rfl, rfl, rfl, rfl⟩

theorem armed_of_input (L : CaseFolding) (p : Page) (v : JSString) (hown : TimersOwned p) :
    Armed p.recomputes v p.checkboxes p.allSoftware (handle L (.input v) p) := by
  have hclear : (clearTimeout p.debounceTimer { p with searchValue := v }).timers = [] := by
    unfold clearTimeout
    cases hd : p.debounceTimer with
    | none =>
      dsimp only
      apply List.eq_nil_iff_forall_not_mem.mpr
      intro t ht
      have := hown t ht
      rw [hd] at this
      cases this
    | some h =>
      dsimp only
      rw [List.filter_eq_nil_iff]
      intro t ht
      have := hown t ht
      rw [hd] at this
      rw [Option.some.inj this]
      simp
  have hnow : (clearTimeout p.debounceTimer { p with searchValue := v }).now = p.now := by
    unfold clearTimeout
    cases p.debounceTimer <;> rfl
  have hrest : (clearTimeout p.debounceTimer { p with searchValue := v }).recomputes = p.recomputes ∧
      (clearTimeout p.debounceTimer { p with searchValue := v }).searchValue = v ∧
      (clearTimeout p.debounceTimer { p with searchValue := v }).checkboxes = p.checkboxes ∧
      (clearTimeout p.debounceTimer { p with searchValue := v }).allSoftware = p.allSoftware := by
    unfold clearTimeout
    cases p.debounceTimer <;> exact ⟨rfl, rfl, rfl, rfl⟩
  unfold Armed handle onSearchInput setTimeout
  dsimp only
  refine ⟨_, ?_, rfl, hrest.1, hrest.2.1, hrest.2.2.1, hrest.2.2.2⟩
  rw [hclear, hnow]
  rfl

theorem armed_elapse_lt (L : CaseFolding) (r : Nat) (v : JSString) (cbs : List Checkbox)
    (all : List Item) (q : Page) (d : Nat) (ha : Armed r v cbs all q) (hd : d < 250) :
    TimersOwned (elapse L d q) ∧ (elapse L d q).recomputes = r ∧
      (elapse L d q).checkboxes = cbs ∧ (elapse L d q).allSoftware = all := by
  obtain ⟨h, ht, hdt, hr, _, hc, hall⟩ := ha
  have hnot : ¬ q.now + 250 ≤ q.now + d := by omega
  have he : elapse L d q = { q with now := q.now + d } := by
    unfold elapse
    simp only [ht, List.filter_cons, List.filter_nil, hnot, decide_False, Bool.not_false,
      if_true, Bool.false_eq_true, if_false, List.foldl_nil]
  rw [he]
  refine ⟨?_, hr, hc, hall⟩
  intro t htm
  have htm : t ∈ q.timers := htm
  rw [ht, List.mem_singleton] at htm
  subst htm
  exact hdt

theorem armed_of_key (L : CaseFolding) (r : Nat) (v w : JSString) (cbs : List Checkbox)
    (all : List Item) (q : Page) (d : Nat) (ha : Armed r v cbs all q) (hd : d < 250) :
    Armed r w cbs all (handle L (.input w) (elapse L d q)) := by
  obtain ⟨h1, h2, h3, h4⟩ := armed_elapse_lt L r v cbs all q d ha hd
  have := armed_of_input L (elapse L d q) w h1
  rw [h2, h3, h4] at this
  exact this

theorem armed_run_typing (L : CaseFolding) (r : Nat) (cbs : List Checkbox) (all : List Item)
    (keys : List (Nat × JSString)) :
    ∀ (v : JSString) (q : Page), Armed r v cbs all q → (∀ k ∈ keys, k.1 < 250) →
      Armed r (finalText v keys) cbs all (run L (typing keys) q) := by
  induction keys with
  | nil =>
    intro v q ha _
    exact ha
  | cons k keys ih =>
    intro v q ha hk
    have hstep := armed_of_key L r v k.2 cbs all q k.1 ha (hk k (List.mem_cons_self _ _))
    have := ih k.2 _ hstep (fun j hj => hk j (List.mem_cons_of_mem _ hj))
    have hft : finalText v (k :: keys) = finalText k.2 keys := by
      unfold finalText
      rw [List.map_cons]
      cases keys.map (fun k => k.2) <;> rfl
    rw [hft]
    exact this

theorem armed_elapse_ge (L : CaseFolding) (r : Nat) (v : JSString) (cbs : List Checkbox)
    (all : List Item) (q : Page) (d : Nat) (ha : Armed r v cbs all q) (hd : 250 ≤ d) :
    elapse L d q = filterAndRender L { q with timers := [], now := q.now + d } := by
  obtain ⟨h, ht, _⟩ := ha
  have hle : q.now + 250 ≤ q.now + d := by omega
  unfold elapse
  simp only [ht, List.filter_cons, List.filter_nil, hle, decide_True, Bool.not_true,
    if_true, Bool.false_eq_true, if_false, List.foldl_cons, List.foldl_nil]


theorem foldl_filterAndRender_fields (L : CaseFolding) (ts : List Timer) (p : Page) :
    (ts.foldl (fun q _ => filterAndRender L q) p).timers = p.timers ∧
    (ts.foldl (fun q _ => filterAndRender L q) p).debounceTimer = p.debounceTimer ∧
    (ts.foldl (fun q _ => filterAndRender L q) p).now = p.now := by
  induction ts generalizing p with
  | nil => exact ⟨rfl, rfl, rfl⟩
  | cons t ts ih =>
    rw [List.foldl_cons]
    obtain ⟨h1, h2, h3⟩ := ih (filterAndRender L p)
    obtain ⟨g1, g2, g3, _⟩ := filterAndRender_fields L p
    exact ⟨h1.trans g1, h2.trans g2, h3.trans g3⟩

theorem elapse_timers (L : CaseFolding) (d : Nat) (p : Page) :
    (elapse L d p).timers = p.timers.filter (fun t => !decide (t.due ≤ p.now + d)) ∧
    (elapse L d p).debounceTimer = p.debounceTimer ∧
    (elapse L d p).now = p.now + d := by
  unfold elapse
  obtain ⟨h1, h2, h3⟩ := foldl_filterAndRender_fields L
    (p.timers.filter (fun t => decide (t.due ≤ p.now + d)))
    { p with timers := p.timers.filter (fun t => !decide (t.due ≤ p.now + d)), now := p.now + d }
  exact ⟨h1, h2, h3⟩

theorem timersOwned_elapse (L : CaseFolding) (d : Nat) (p : Page) (h : TimersOwned p) :
    TimersOwned (elapse L d p) := by
  obtain ⟨h1, h2, _⟩ := elapse_timers L d p
  intro t ht
  rw [h1] at ht
  rw [h2]
  exact h t (List.mem_filter.mp ht).1

theorem handle_keeps_timers (L : CaseFolding) (e : Event) (p : Page)
    (he : ∀ v, e ≠ Event.input v) :
    (handle L e p).timers = p.timers ∧ (handle L e p).debounceTimer = p.debounceTimer := by
  cases e with
  | input v => exact absurd rfl (he v)
  | toggle i =>
    unfold handle
    dsimp only
    split
    · unfold onCheckboxChange
      exact ⟨(filterAndRender_fields L _).1, (filterAndRender_fields L _).2.1⟩
    · exact ⟨rfl, rfl⟩
  | chipClick i =>
    unfold handle
    dsimp only
    split
    · unfold onChipClick
      exact ⟨(filterAndRender_fields L _).1, (filterAndRender_fields L _).2.1⟩
    · exact ⟨rfl, rfl⟩
  | clearFilters =>
    unfold handle onClearFilters
    exact ⟨(filterAndRender_fields L _).1, (filterAndRender_fields L _).2.1⟩
  | openSidebar => exact ⟨rfl, rfl⟩
  | closeSidebar => exact ⟨rfl, rfl⟩
  | fetchSettled r =>
    unfold handle fetchSoftwareSettled
    dsimp only
    split
    · exact ⟨(filterAndRender_fields L _).1, (filterAndRender_fields L _).2.1⟩
    · exact ⟨rfl, rfl⟩

theorem timersOwned_handle (L : CaseFolding) (e : Event) (p : Page) (h : TimersOwned p) :
    TimersOwned (handle L e p) := by
  by_cases he : ∃ v, e = Event.input v
  · obtain ⟨v, rfl⟩ := he
    obtain ⟨id, h1, h2, _⟩ := armed_of_input L p v h
    intro t ht
    rw [h1, List.mem_singleton] at ht
    rw [h2, ht]
  · obtain ⟨h1, h2⟩ := handle_keeps_timers L e p (fun v hv => he ⟨v, hv⟩)
    intro t ht
    rw [h1] at ht
    rw [h2]
    exact h t ht

theorem timersOwned_run (L : CaseFolding) (es : List (Nat × Event)) (p : Page)
    (h : TimersOwned p) : TimersOwned (run L es p) := by
  induction es generalizing p with
  | nil => exact h
  | cons e es ih =>
    exact ih _ (timersOwned_handle L e.2 _ (timersOwned_elapse L e.1 p h))

theorem timersOwned_initialPage (v : JSString) (cbs : List Checkbox) (g a c : JSString)
    (o : Bool) : TimersOwned (initialPage v cbs g a c o) := by
  intro t ht
  cases ht

theorem armed_fire (L : CaseFolding) (r : Nat) (v : JSString) (cbs : List Checkbox)
    (all : List Item) (q : Page) (d : Nat) (ha : Armed r v cbs all q) (hd : 250 ≤ d) :
    (elapse L d q).recomputes = r + 1 ∧
    (elapse L d q).timers = [] ∧
    (elapse L d q).grid = gridHtml (applyFilters L (trim (L.toLowerCase v)) (selectedCats cbs) all) ∧
    (elapse L d q).catalogCount =
      countText (applyFilters L (trim (L.toLowerCase v)) (selectedCats cbs) all).length
        all.length ∧
    ∀ d2, (elapse L d2 (elapse L d q)).recomputes = r + 1 := by
  have he := armed_elapse_ge L r v cbs all q d ha hd
  obtain ⟨_, _, _, hr, hv, hc, hall⟩ := ha
  have hf := filterAndRender_fields L { q with timers := [], now := q.now + d }
  have hfo : filteredOf L { q with timers := [], now := q.now + d } =
      applyFilters L (trim (L.toLowerCase v)) (selectedCats cbs) all := by
    unfold filteredOf queryOf
    dsimp only
    rw [hv, hc, hall]
  have hg : (filterAndRender L { q with timers := [], now := q.now + d }).grid =
      gridHtml (applyFilters L (trim (L.toLowerCase v)) (selectedCats cbs) all) := by
    rw [filterAndRender_grid, hfo]
  have hcnt : (filterAndRender L { q with timers := [], now := q.now + d }).catalogCount =
      countText (applyFilters L (trim (L.toLowerCase v)) (selectedCats cbs) all).length
        all.length := by
    rw [filterAndRender_catalogCount, hfo]
    dsimp only
    rw [hall]
  dsimp only at hf
  have hrec : (elapse L d q).recomputes = r + 1 := by
    rw [he, hf.2.2.2.2.2.2, hr]
  have ht0 : (elapse L d q).timers = [] := by rw [he, hf.1]
  refine ⟨hrec, ht0, by rw [he, hg], by rw [he, hcnt], ?_⟩
  intro d2
  have : ∀ q2 : Page, q2.timers = [] → (elapse L d2 q2).recomputes = q2.recomputes := by
    intro q2 h2
    unfold elapse
    simp only [h2, List.filter_nil, List.foldl_nil]
  rw [this _ ht0, hrec]

theorem debounce_of_owned (L : CaseFolding) (p : Page) (v : JSString)
    (keys : List (Nat × JSString)) (hown : TimersOwned p)
    (hgap : ∀ k ∈ keys, k.1 < 250) :
    (afterTyping L v keys p).recomputes = p.recomputes ∧
    (afterTyping L v keys p).searchValue = finalText v keys ∧
    (∀ d, d < 250 → (elapse L d (afterTyping L v keys p)).recomputes = p.recomputes) ∧
    (∀ d, 250 ≤ d →
      (elapse L d (afterTyping L v keys p)).recomputes = p.recomputes + 1 ∧
      (elapse L d (afterTyping L v keys p)).timers = [] ∧
      (elapse L d (afterTyping L v keys p)).grid =
        gridHtml (applyFilters L (trim (L.toLowerCase (finalText v keys)))
          (selectedCats p.checkboxes) p.allSoftware) ∧
      (elapse L d (afterTyping L v keys p)).catalogCount =
        countText (applyFilters L (trim (L.toLowerCase (finalText v keys)))
          (selectedCats p.checkboxes) p.allSoftware).length p.allSoftware.length ∧
      ∀ d2, (elapse L d2 (elapse L d (afterTyping L v keys p))).recomputes =
        p.recomputes + 1) := by
  have ha : Armed p.recomputes (finalText v keys) p.checkboxes p.allSoftware
      (afterTyping L v keys p) :=
    armed_run_typing L _ _ _ keys v _ (armed_of_input L p v hown) hgap
  refine ⟨?_, ?_, ?_, ?_⟩
  · obtain ⟨_, _, _, hr, _⟩ := ha
    exact hr
  · obtain ⟨_, _, _, _, hv, _⟩ := ha
    exact hv
  · intro d hd
    exact (armed_elapse_lt L _ _ _ _ _ d ha hd).2.1
  · intro d hd
    exact armed_fire L _ _ _ _ _ d ha hd

theorem timersOwned_of_reachable (L : CaseFolding) (p : Page) (h : Reachable L p) :
    TimersOwned p := by
  obtain ⟨v, cbs, g, a, c, o, es, rfl⟩ := h
  exact timersOwned_run L es _ (timersOwned_initialPage v cbs g a c o)

/-- Claim C10: on every reachable page, a first keystroke followed by any number of
further keystrokes, each less than 250 ms after the one before, performs no recompute
during the burst nor in the time short of 250 ms after the last keystroke; once 250 ms
or more have passed since that last keystroke exactly one run of `filterAndRender`
has happened, no timeout is left, the grid and the count are those of the text the
last keystroke left in the search box, and waiting longer brings no further run. -/
theorem debounce_runs_once (L : CaseFolding) (p : Page) (v : JSString)
    (keys : List (Nat × JSString)) (hp : Reachable L p)
    (hgap : ∀ k ∈ keys, k.1 < 250) :
    (afterTyping L v keys p).recomputes = p.recomputes ∧
    (afterTyping L v keys p).searchValue = finalText v keys ∧
    (∀ d, d < 250 → (elapse L d (afterTyping L v keys p)).recomputes = p.recomputes) ∧
    (∀ d, 250 ≤ d →
      (elapse L d (afterTyping L v keys p)).recomputes = p.recomputes + 1 ∧
      (elapse L d (afterTyping L v keys p)).timers = [] ∧
      (elapse L d (afterTyping L v keys p)).grid =
        gridHtml (applyFilters L (trim (L.toLowerCase (finalText v keys)))
          (selectedCats p.checkboxes) p.allSoftware) ∧
      (elapse L d (afterTyping L v keys p)).catalogCount =
        countText (applyFilters L (trim (L.toLowerCase (finalText v keys)))
          (selectedCats p.checkboxes) p.allSoftware).length p.allSoftware.length ∧
      ∀ d2, (elapse L d2 (elapse L d (afterTyping L v keys p))).recomputes =
        p.recomputes + 1) :=
  debounce_of_owned L p v keys (timersOwned_of_reachable L p hp) hgap

/-- Instance of claim C10: `z`, `zo`, `zoo` typed 100 ms and 249 ms apart on the loaded
Zoom/Canvas page, which has been rendered once; nothing more is recomputed until
250 ms after the last keystroke, then one run shows Zoom alone. -/
theorem debounce_runs_once_example :
    (afterTyping asciiFolding (lit "z") [(100, lit "zo"), (249, lit "zoo")]
      zoomCanvasLoaded).recomputes = 1 ∧
    (elapse asciiFolding 249 (afterTyping asciiFolding (lit "z")
      [(100, lit "zo"), (249, lit "zoo")] zoomCanvasLoaded)).recomputes = 1 ∧
    (elapse asciiFolding 250 (afterTyping asciiFolding (lit "z")
      [(100, lit "zo"), (249, lit "zoo")] zoomCanvasLoaded)).recomputes = 2 ∧
    (elapse asciiFolding 250 (afterTyping asciiFolding (lit "z")
      [(100, lit "zo"), (249, lit "zoo")] zoomCanvasLoaded)).grid = gridHtml [zoom] := by
  have h := debounce_runs_once asciiFolding zoomCanvasLoaded (lit "z")
    [(100, lit "zo"), (249, lit "zoo")] ⟨_, _, _, _, _, _, _, rfl⟩ (by decide)
  have hr : zoomCanvasLoaded.recomputes = 1 := by decide
  have hc : zoomCanvasLoaded.checkboxes =
      [{ value := lit "10", checked := false, badge := some (lit "Free") },
       { value := lit "11", checked := false, badge := some (lit "Paid") }] := by
    unfold zoomCanvasLoaded run
    simp only [List.foldl_cons, List.foldl_nil, handle, fetchSoftwareSettled]
    rw [filterAndRender_checkboxes]
    rfl
  have ha : zoomCanvasLoaded.allSoftware = [zoom, canvas] := by
    unfold zoomCanvasLoaded run
    simp only [List.foldl_cons, List.foldl_nil, handle, fetchSoftwareSettled]
    rw [(filterAndRender_fields _ _).2.2.2.2.2.1]
  refine ⟨h.1.trans hr, (h.2.2.1 249 (by decide)).trans hr,
    (h.2.2.2 250 (le_refl _)).1.trans (by rw [hr]), ?_⟩
  rw [(h.2.2.2 250 (le_refl _)).2.2.1, hc, ha]
  exact congrArg gridHtml (by decide)

/-! ## Clearing, loading and chips -/

theorem filterAndRender_activeFilters (L : CaseFolding) (p : Page) :
    (filterAndRender L p).activeFilters = ((labelsOf p.checkboxes).map chipHtml).flatten := by
  unfold filterAndRender renderActiveFilters renderGrid
  dsimp only
  split
  · rename_i h
    rw [labelsOf_eq_nil_of_selected_nil _ h]
    rfl
  · rfl

theorem labelsOf_eq_nil (cbs : List Checkbox) (h : ∀ cb ∈ cbs, cb.checked = false) :
    labelsOf cbs = [] := by
  apply labelsOf_eq_nil_of_selected_nil
  rw [(selectedCats_eq_nil cbs).mpr h]
  rfl

theorem queryOf_whiteSpace (L : CaseFolding) (p : Page)
    (hws : ∀ c ∈ p.searchValue, isWhiteSpace c = true) : queryOf L p = [] := by
  unfold queryOf
  rw [L.whiteSpace_fixed _ hws]
  exact trim_whiteSpace _ hws

theorem filteredOf_unfiltered (L : CaseFolding) (p : Page)
    (hws : ∀ c ∈ p.searchValue, isWhiteSpace c = true)
    (hsel : ∀ cb ∈ p.checkboxes, cb.checked = false) : filteredOf L p = p.allSoftware := by
  unfold filteredOf
  rw [queryOf_whiteSpace L p hws, (selectedCats_eq_nil _).mpr hsel]
  rfl

/-- Claim C11: from every page, the clear-filters action leaves the search text empty
and every check box unchecked (values and labels as they were), runs
`filterAndRender` exactly once and touches no timer; afterwards the grid is the
rendering of the whole collection in its order, there is no chip, and the count
reads `n of n items` for a collection of `n` items. -/
theorem clear_filters_resets (L : CaseFolding) (p : Page) :
    (handle L .clearFilters p).searchValue = [] ∧
    (handle L .clearFilters p).checkboxes =
      p.checkboxes.map (fun cb => { cb with checked := false }) ∧
    (∀ cb ∈ (handle L .clearFilters p).checkboxes, cb.checked = false) ∧
    (handle L .clearFilters p).recomputes = p.recomputes + 1 ∧
    (handle L .clearFilters p).timers = p.timers ∧
    (handle L .clearFilters p).allSoftware = p.allSoftware ∧
    (handle L .clearFilters p).grid = gridHtml p.allSoftware ∧
    (p.allSoftware ≠ [] →
      (handle L .clearFilters p).grid = (p.allSoftware.map cardHtml).flatten) ∧
    (handle L .clearFilters p).chips = [] ∧
    (handle L .clearFilters p).activeFilters = [] ∧
    (handle L .clearFilters p).catalogCount =
      lit (toString p.allSoftware.length) ++ lit " of " ++
        lit (toString p.allSoftware.length) ++ lit " items" := by
  have hun : ∀ cb ∈ p.checkboxes.map (fun cb => { cb with checked := false }),
      cb.checked = false := by
    intro cb hcb
    rw [List.mem_map] at hcb
    obtain ⟨cb0, _, rfl⟩ := hcb
    rfl
  have hh : handle L .clearFilters p =
      filterAndRender L { p with
        searchValue := lit "",
        checkboxes := p.checkboxes.map (fun cb => { cb with checked := false }) } := rfl
  have hf := filterAndRender_fields L { p with
        searchValue := lit "",
        checkboxes := p.checkboxes.map (fun cb => { cb with checked := false }) }
  have hfo : filteredOf L { p with
        searchValue := lit "",
        checkboxes := p.checkboxes.map (fun cb => { cb with checked := false }) } =
      p.allSoftware :=
    filteredOf_unfiltered L _ (fun c hc => by cases hc) hun
  have hgrid : (handle L .clearFilters p).grid = gridHtml p.allSoftware := by
    rw [hh, filterAndRender_grid, hfo]
  have hcb : (handle L .clearFilters p).checkboxes =
      p.checkboxes.map (fun cb => { cb with checked := false }) := by
    rw [hh, filterAndRender_checkboxes]
  refine ⟨?_, hcb, ?_, ?_, ?_, ?_, hgrid, ?_, ?_, ?_, ?_⟩
  · rw [hh, hf.2.2.2.2.1]
    rfl
  · rw [hcb]
    exact hun
  · rw [hh, hf.2.2.2.2.2.2]
  · rw [hh, hf.1]
  · rw [hh, hf.2.2.2.2.2.1]
  · intro hne
    rw [hgrid]
    unfold gridHtml
    rw [if_neg (fun h => hne (List.length_eq_zero.mp h))]
  · rw [hh, filterAndRender_chips]
    dsimp only
    rw [labelsOf_eq_nil _ hun]
    rfl
  · rw [hh, filterAndRender_activeFilters]
    dsimp only
    rw [labelsOf_eq_nil _ hun]
    rfl
  · rw [hh, filterAndRender_catalogCount, hfo]
    rfl

theorem foldl_filterAndRender_allSoftware (L : CaseFolding) (ts : List Timer) (p : Page) :
    (ts.foldl (fun q _ => filterAndRender L q) p).allSoftware = p.allSoftware := by
  induction ts generalizing p with
  | nil => rfl
  | cons t ts ih =>
    rw [List.foldl_cons, ih, (filterAndRender_fields L p).2.2.2.2.2.1]

theorem elapse_allSoftware (L : CaseFolding) (d : Nat) (p : Page) :
    (elapse L d p).allSoftware = p.allSoftware := by
  unfold elapse
  exact foldl_filterAndRender_allSoftware L _ _

theorem handle_allSoftware (L : CaseFolding) (e : Event) (p : Page)
    (he : ∀ r, e ≠ Event.fetchSettled r) : (handle L e p).allSoftware = p.allSoftware := by
  cases e with
  | input v =>
    unfold handle onSearchInput setTimeout clearTimeout
    dsimp only
    cases p.debounceTimer <;> rfl
  | toggle i =>
    unfold handle
    dsimp only
    split
    · unfold onCheckboxChange
      exact (filterAndRender_fields L _).2.2.2.2.2.1
    · rfl
  | chipClick i =>
    unfold handle
    dsimp only
    split
    · unfold onChipClick
      exact (filterAndRender_fields L _).2.2.2.2.2.1
    · rfl
  | clearFilters =>
    unfold handle onClearFilters
    exact (filterAndRender_fields L _).2.2.2.2.2.1
  | openSidebar => rfl
  | closeSidebar => rfl
  | fetchSettled r => exact absurd rfl (he r)

theorem run_allSoftware (L : CaseFolding) (es : List (Nat × Event)) (p : Page)
    (hes : ∀ e ∈ es, ∀ r, e.2 ≠ Event.fetchSettled r) :
    (run L es p).allSoftware = p.allSoftware := by
  induction es generalizing p with
  | nil => rfl
  | cons e es ih =>
    have h1 : (handle L e.2 (elapse L e.1 p)).allSoftware = p.allSoftware := by
      rw [handle_allSoftware L e.2 _ (hes e (List.mem_cons_self _ _)), elapse_allSoftware]
    have h2 := ih (handle L e.2 (elapse L e.1 p))
      (fun x hx => hes x (List.mem_cons_of_mem _ hx))
    exact h2.trans h1

/-- Claim C12: when the request of `fetchSoftware` fails, by rejection or by a response
that is not `ok`, the function returns normally, the page is the former one with the
failure message as grid content, so the collection, the count, the chips and the
number of recomputes are untouched; the collection, which only this request could
have filled, is empty; the event dispatcher does the same, and whatever the outcome
`fetchSoftware` throws nothing to its caller. -/
theorem fetch_failure_is_contained :
    (∀ (L : CaseFolding) (p : Page),
      fetchSoftware L .rejected p = .ok { p with grid := loadFailedHtml }) ∧
    (∀ (L : CaseFolding) (p : Page) (body : Option (List Item)),
      fetchSoftware L (.response false body) p = .ok { p with grid := loadFailedHtml }) ∧
    (∀ (L : CaseFolding) (p : Page) (r : FetchOutcome),
      fetchSoftware L r p = .ok (handle L (.fetchSettled r) p)) ∧
    (∀ (L : CaseFolding) (p : Page) (r : FetchOutcome),
      r = .rejected ∨ (∃ body, r = .response false body) →
        (handle L (.fetchSettled r) p).grid = loadFailedHtml ∧
        (handle L (.fetchSettled r) p).allSoftware = p.allSoftware ∧
        (handle L (.fetchSettled r) p).catalogCount = p.catalogCount ∧
        (handle L (.fetchSettled r) p).activeFilters = p.activeFilters ∧
        (handle L (.fetchSettled r) p).chips = p.chips ∧
        (handle L (.fetchSettled r) p).recomputes = p.recomputes) ∧
    (∀ (L : CaseFolding) (v : JSString) (cbs : List Checkbox) (g a c : JSString) (o : Bool)
        (es : List (Nat × Event)) (r : FetchOutcome),
      (∀ e ∈ es, ∀ r2, e.2 ≠ Event.fetchSettled r2) →
      r = .rejected ∨ (∃ body, r = .response false body) →
        (handle L (.fetchSettled r) (run L es (initialPage v cbs g a c o))).allSoftware = []) ∧
    loadFailedHtml =
      lit "<div class=\"no-results\">Failed to load catalog. Please refresh.</div>" := by
  refine ⟨fun _ _ => rfl, fun _ _ _ => rfl, ?_, ?_, ?_, rfl⟩
  · intro L p r
    cases r with
    | rejected => rfl
    | response ok body =>
      cases ok <;> cases body <;> rfl
  · intro L p r hr
    rcases hr with rfl | ⟨body, rfl⟩
    · exact ⟨rfl, rfl, rfl, rfl, rfl, rfl⟩
    · exact ⟨rfl, rfl, rfl, rfl, rfl, rfl⟩
  · intro L v cbs g a c o es r hes hr
    have h0 : (run L es (initialPage v cbs g a c o)).allSoftware = [] :=
      run_allSoftware L es _ hes
    rcases hr with rfl | ⟨body, rfl⟩
    · exact h0
    · exact h0

/-- Instance of claim C12: the request is rejected on the page at start-up; the grid
holds the failure message, the collection is empty, the count and chip areas are still
empty and nothing has been recomputed. -/
theorem fetch_failure_example :
    (handle asciiFolding (.fetchSettled .rejected) emptyStart).grid = loadFailedHtml ∧
    (handle asciiFolding (.fetchSettled .rejected) emptyStart).allSoftware = [] ∧
    (handle asciiFolding (.fetchSettled .rejected) emptyStart).catalogCount = [] ∧
    (handle asciiFolding (.fetchSettled .rejected) emptyStart).activeFilters = [] ∧
    (handle asciiFolding (.fetchSettled .rejected) emptyStart).chips = [] ∧
    (handle asciiFolding (.fetchSettled .rejected) emptyStart).recomputes = 0 :=
  fetch_failure_is_contained.2.2.2.1 asciiFolding emptyStart .rejected (Or.inl rfl)

theorem filterAndRender_page (L : CaseFolding) (p : Page) :
    filterAndRender L p =
      { p with
        grid := gridHtml (filteredOf L p)
        activeFilters := ((labelsOf p.checkboxes).map chipHtml).flatten
        chips := (labelsOf p.checkboxes).map (fun l => numToString l.id)
        catalogCount := countText (filteredOf L p).length p.allSoftware.length
        recomputes := p.recomputes + 1 } := by
  have h1 := filterAndRender_activeFilters L p
  have h2 := filterAndRender_chips L p
  unfold filterAndRender renderActiveFilters renderGrid filteredOf queryOf at *
  dsimp only at *
  split
  · rename_i h
    rw [if_pos h] at h1 h2
    dsimp only at h1 h2
    rw [← h1, ← h2]
  · rfl

/-- Claim C13: after `filterAndRender`, when no check box is checked the chip container
is empty and there is no chip; in general the container holds one chip per checked
box, in document order, the chip of a box being a button whose `data-id` is the
decimal rendering of the parsed value of the box and whose label is the escaped text
of the badge of the box, or of its raw value when it has no badge, followed by
` &times;`. -/
theorem chips_mirror_checked_boxes :
    (∀ (L : CaseFolding) (p : Page), (∀ cb ∈ p.checkboxes, cb.checked = false) →
      (filterAndRender L p).activeFilters = [] ∧ (filterAndRender L p).chips = []) ∧
    (∀ (L : CaseFolding) (p : Page),
      (filterAndRender L p).activeFilters =
        (((p.checkboxes.filter (fun cb => cb.checked)).map
          (fun cb =>
            lit "<button class=\"active-filter\" data-id=\"" ++
              numToString (parseInt cb.value) ++ lit "\">" ++
              escapeHtml (some (cb.badge.getD cb.value)) ++ lit " &times;</button>"))).flatten ∧
      (filterAndRender L p).chips =
        (p.checkboxes.filter (fun cb => cb.checked)).map
          (fun cb => numToString (parseInt cb.value)) ∧
      (filterAndRender L p).chips.length =
        (p.checkboxes.filter (fun cb => cb.checked)).length) ∧
    (∀ (selected : List JSNum) (p : Page), selected.length = 0 →
      (renderActiveFilters selected p).activeFilters = [] ∧
      (renderActiveFilters selected p).chips = []) ∧
    (∀ (selected : List JSNum) (p : Page), selected.length ≠ 0 →
      (renderActiveFilters selected p).activeFilters =
        ((labelsOf p.checkboxes).map chipHtml).flatten ∧
      (renderActiveFilters selected p).chips =
        (labelsOf p.checkboxes).map (fun l => numToString l.id)) := by
  refine ⟨?_, ?_, ?_, ?_⟩
  · intro L p h
    rw [filterAndRender_activeFilters, filterAndRender_chips, labelsOf_eq_nil _ h]
    exact ⟨rfl, rfl⟩
  · intro L p
    have hc : (filterAndRender L p).chips =
        (p.checkboxes.filter (fun cb => cb.checked)).map
          (fun cb => numToString (parseInt cb.value)) := by
      rw [filterAndRender_chips]
      unfold labelsOf
      rw [List.map_map]
      rfl
    refine ⟨?_, hc, ?_⟩
    · rw [filterAndRender_activeFilters]
      unfold labelsOf
      rw [List.map_map]
      rfl
    · rw [hc, List.length_map]
  · intro selected p h
    unfold renderActiveFilters
    rw [if_pos h]
    exact ⟨rfl, rfl⟩
  · intro selected p h
    unfold renderActiveFilters
    rw [if_neg h]
    exact ⟨rfl, rfl⟩

/-- Instance of claim C13 on the Zoom/Canvas page: nothing checked gives an empty
container; both boxes checked give the chips of `10` and `11` in that order. -/
theorem chips_mirror_checked_boxes_example :
    (filterAndRender asciiFolding (zoomCanvasPage (lit "") false false)).activeFilters = [] ∧
    (filterAndRender asciiFolding (zoomCanvasPage (lit "") false false)).chips = [] ∧
    (filterAndRender asciiFolding (zoomCanvasPage (lit "") true true)).activeFilters =
      lit ("<button class=\"active-filter\" data-id=\"10\">Free &times;</button>" ++
        "<button class=\"active-filter\" data-id=\"11\">Paid &times;</button>") ∧
    (filterAndRender asciiFolding (zoomCanvasPage (lit "") true true)).chips =
      [lit "10", lit "11"] := by
  have h0 := chips_mirror_checked_boxes.1 asciiFolding (zoomCanvasPage (lit "") false false)
    (by decide)
  have h1 := chips_mirror_checked_boxes.2.1 asciiFolding (zoomCanvasPage (lit "") true true)
  refine ⟨h0.1, h0.2, ?_, ?_⟩
  · rw [h1.1]
    decide
  · rw [h1.2.1]
    decide

/-! ## Badges and cards -/

theorem mem_cardBadges (s : Item) (c : Category) :
    c ∈ cardBadges s ↔ c ∈ s.categories ∧ c.type ∈ CARD_BADGE_TYPES := by
  unfold cardBadges
  rw [List.mem_filter, decide_eq_true_eq]

/-- Claim C14: the badges of a card are the categories of the item whose type is one of
`dpa_status`, `cost`, `roster`, `access`, in the order of the item's categories; each
is a `span` of class `badge badge-<type>` whose content is the escaped name of the
category; the row of badges ends the card.  A category of another type gives no
badge, yet the category filter looks at identifiers only, whatever the types. -/
theorem badges_follow_allow_list :
    CARD_BADGE_TYPES = [lit "dpa_status", lit "cost", lit "roster", lit "access"] ∧
    (∀ (s : Item) (c : Category),
      c ∈ cardBadges s ↔ c ∈ s.categories ∧ c.type ∈ CARD_BADGE_TYPES) ∧
    (∀ s : Item, (cardBadges s).Sublist s.categories) ∧
    (∀ s : Item,
      badgesHtml s =
        ((cardBadges s).map
          (fun c =>
            lit "<span class=\"badge badge-" ++ c.type ++ lit "\" data-name=\"" ++
              escapeHtml (some c.name) ++ lit "\">" ++ escapeHtml (some c.name) ++
              lit "</span>")).flatten) ∧
    (∀ s : Item,
      lit "<div class=\"card-badges\">" ++ badgesHtml s ++
        lit "</div>\n                </a>\n            " <:+ cardHtml s) ∧
    (∀ (C : List JSNum) (s : Item),
      catMatch C s = true ↔ ∀ id ∈ C, ∃ c ∈ s.categories, (some c.id : JSNum) = id) ∧
    (∀ (C : List JSNum) (s : Item) (f : Category → JSString),
      catMatch C { s with categories := s.categories.map (fun c => { c with type := f c }) } =
        catMatch C s) ∧
    (cardBadges gradedItem = [{ id := 10, name := lit "Free", type := lit "cost" }] ∧
      badgesHtml gradedItem =
        lit "<span class=\"badge badge-cost\" data-name=\"Free\">Free</span>" ∧
      applyFilters asciiFolding [] [some 20] [zoom, gradedItem] = [gradedItem]) := by
  refine ⟨rfl, mem_cardBadges, fun s => List.filter_sublist _, fun s => rfl, ?_, ?_, ?_,
    by decide, by decide, by decide⟩
  · intro s
    unfold cardHtml
    have hsplit : lit "</div>\n                    <div class=\"card-badges\">" =
        lit "</div>\n                    " ++ lit "<div class=\"card-badges\">" := by decide
    rw [hsplit]
    simp only [List.append_assoc]
    refine ⟨lit "\n                <a href=\"/software/" ++ (s.id.toJSString ++
      (lit "\" class=\"software-card " ++ ((if s.featured = true then lit "featured" else lit "") ++
      (lit "\">\n                    <div class=\"card-header\">\n                        " ++
      (logoHtml s ++ (lit "\n                        <div class=\"card-name\">" ++
      (escapeHtml (some s.name) ++
      (lit "</div>\n                    </div>\n                    <div class=\"card-tagline\">" ++
      (escapeHtml (some s.tagline) ++ lit "</div>\n                    "))))))))), ?_⟩
    simp only [List.append_assoc]
  · intro C s
    rw [catMatch_iff]
    unfold catIdsOf
    simp only [List.mem_map]
  · intro C s f
    unfold catMatch
    dsimp only
    rw [List.map_map]
    rfl

set_option maxRecDepth 8192 in
theorem noResultsHtml_no_link : ¬ (lit "<a " <:+: noResultsHtml) := by decide

/-- Shape of the grid on the level of the template: for the empty list `renderGrid`
writes the no-results placeholder, which holds no link; for a non-empty list it writes the cards of the items one after the
other in the order of the list, nothing else; the card of an item opens with a link
to `/software/` followed by the item's id and the class `software-card featured` when
the item is featured, `software-card ` when it is not, and closes that link at its
end. -/
theorem grid_is_one_card_per_item :
    (∀ p : Page, (renderGrid [] p).grid = noResultsHtml) ∧
    noResultsHtml =
      lit "<div class=\"no-results\">No software matches your search or filters.</div>" ∧
    ¬ (lit "<a " <:+: noResultsHtml) ∧
    (∀ (items : List Item) (p : Page), items ≠ [] →
      (renderGrid items p).grid = (items.map cardHtml).flatten ∧
      (items.map cardHtml).length = items.length ∧
      (∀ i : Nat, (items.map cardHtml)[i]? = (items[i]?).map cardHtml)) ∧
    (∀ (s : Item) (rest : List Item) (p : Page),
      (renderGrid (s :: rest) p).grid = cardHtml s ++ (rest.map cardHtml).flatten) ∧
    (∀ s : Item, cardOpening s <+: cardHtml s ∧ lit "</a>\n            " <:+ cardHtml s) ∧
    (∀ s : Item, s.featured = true →
      cardOpening s =
        lit "\n                <a href=\"/software/" ++ s.id.toJSString ++
          lit "\" class=\"software-card featured\">") ∧
    (∀ s : Item, s.featured = false →
      cardOpening s =
        lit "\n                <a href=\"/software/" ++ s.id.toJSString ++
          lit "\" class=\"software-card \">") := by
  refine ⟨fun p => rfl, rfl, noResultsHtml_no_link, ?_, fun s rest p => rfl, ?_, ?_, ?_⟩
  · intro items p hne
    refine ⟨?_, List.length_map _ _, fun i => List.getElem?_map _ _ _⟩
    unfold renderGrid gridHtml
    dsimp only
    rw [if_neg (fun h => hne (List.length_eq_zero.mp h))]
  · intro s
    constructor
    · unfold cardHtml cardOpening
      have hsplit : lit "\">\n                    <div class=\"card-header\">\n                        " =
          lit "\">" ++ lit "\n                    <div class=\"card-header\">\n                        " := by
        decide
      rw [hsplit]
      simp only [List.append_assoc, List.prefix_append_right_inj, List.prefix_append]
    · unfold cardHtml
      have hsplit : lit "</div>\n                </a>\n            " =
          lit "</div>\n                " ++ lit "</a>\n            " := by decide
      rw [hsplit]
      simp only [← List.append_assoc]
      exact ⟨_, rfl⟩
  · intro s h
    unfold cardOpening
    rw [h, if_pos rfl]
    have : lit "\" class=\"software-card " ++ lit "featured" ++ lit "\">" =
        lit "\" class=\"software-card featured\">" := by decide
    rw [← this]
    simp only [List.append_assoc]
  · intro s h
    unfold cardOpening
    rw [h, if_neg (by decide)]
    have : lit "\" class=\"software-card " ++ lit "" ++ lit "\">" =
        lit "\" class=\"software-card \">" := by decide
    rw [← this]
    simp only [List.append_assoc]

/-- The grid of the Zoom/Canvas collection: two cards, Zoom first. -/
theorem grid_is_one_card_per_item_example :
    (renderGrid [zoom, canvas] emptyStart).grid = cardHtml zoom ++ cardHtml canvas ∧
    lit "\n                <a href=\"/software/1\" class=\"software-card \">" <+: cardHtml zoom := by
  have h := (grid_is_one_card_per_item.2.2.2.1 [zoom, canvas] emptyStart (by decide)).1
  have ho := (grid_is_one_card_per_item.2.2.2.2.2.1 zoom).1
  have hf := grid_is_one_card_per_item.2.2.2.2.2.2.2 zoom rfl
  refine ⟨?_, ?_⟩
  · rw [h]
    simp only [List.map_cons, List.map_nil, List.flatten_cons, List.flatten_nil,
      List.append_nil]
  · rw [hf] at ho
    exact ho

/-- Claim C16: when the collection is empty, whatever the search text and the check
boxes, the filtered list is empty, `filterAndRender` writes the no-results placeholder
into the grid and the count reads `0 of 0 items`. -/
theorem empty_collection_shows_placeholder (L : CaseFolding) (p : Page)
    (h : p.allSoftware = []) :
    filteredOf L p = [] ∧
    (filterAndRender L p).grid = noResultsHtml ∧
    (filterAndRender L p).catalogCount = lit "0 of 0 items" := by
  have hf : filteredOf L p = [] := by
    have hs := applyFilters_sublist L (queryOf L p) (selectedCats p.checkboxes) p.allSoftware
    rw [h] at hs
    unfold filteredOf
    rw [h]
    exact List.sublist_nil.mp hs
  refine ⟨hf, ?_, ?_⟩
  · rw [filterAndRender_grid, hf]
    rfl
  · rw [filterAndRender_catalogCount, hf, h]
    decide

/-- Instance of claim C16: no collection, `zoo` in the search box and a box checked. -/
theorem empty_collection_example :
    filteredOf asciiFolding emptyCatalogPage = [] ∧
    (filterAndRender asciiFolding emptyCatalogPage).grid = noResultsHtml ∧
    (filterAndRender asciiFolding emptyCatalogPage).catalogCount = lit "0 of 0 items" :=
  empty_collection_shows_placeholder asciiFolding emptyCatalogPage rfl

/-! ## The debounce timer as an invariant -/

theorem foldl_filterAndRender_recomputes (L : CaseFolding) (ts : List Timer) (p : Page) :
    (ts.foldl (fun q _ => filterAndRender L q) p).recomputes = p.recomputes + ts.length := by
  induction ts generalizing p with
  | nil => rfl
  | cons t ts ih =>
    rw [List.foldl_cons, ih, (filterAndRender_fields L p).2.2.2.2.2.2, List.length_cons]
    omega

theorem timers_le_one_elapse (L : CaseFolding) (d : Nat) (p : Page)
    (h : p.timers.length ≤ 1) : (elapse L d p).timers.length ≤ 1 := by
  rw [(elapse_timers L d p).1]
  exact le_trans (List.length_filter_le _ _) h

theorem timers_le_one_handle (L : CaseFolding) (e : Event) (p : Page)
    (hown : TimersOwned p) (h : p.timers.length ≤ 1) : (handle L e p).timers.length ≤ 1 := by
  by_cases he : ∃ v, e = Event.input v
  · obtain ⟨v, rfl⟩ := he
    obtain ⟨id, h1, _⟩ := armed_of_input L p v hown
    rw [h1]
    exact le_refl _
  · rw [(handle_keeps_timers L e p (fun v hv => he ⟨v, hv⟩)).1]
    exact h

theorem timers_le_one_run (L : CaseFolding) (es : List (Nat × Event)) (p : Page)
    (hown : TimersOwned p) (h : p.timers.length ≤ 1) : (run L es p).timers.length ≤ 1 := by
  induction es generalizing p with
  | nil => exact h
  | cons e es ih =>
    exact ih _ (timersOwned_handle L e.2 _ (timersOwned_elapse L e.1 p hown))
      (timers_le_one_handle L e.2 _ (timersOwned_elapse L e.1 p hown)
        (timers_le_one_elapse L e.1 p h))

theorem handle_immediate_now (L : CaseFolding) (e : Event) (p : Page)
    (he : e.isImmediate = true) :
    (handle L e p).now = p.now ∧ (handle L e p).timers = p.timers ∧
      (handle L e p).debounceTimer = p.debounceTimer := by
  have hk := handle_keeps_timers L e p (by
    intro v hv
    rw [hv] at he
    cases he)
  refine ⟨?_, hk.1, hk.2⟩
  cases e with
  | input v => cases he
  | toggle i =>
    unfold handle
    dsimp only
    split
    · unfold onCheckboxChange
      exact (filterAndRender_fields L _).2.2.1
    · rfl
  | chipClick i =>
    unfold handle
    dsimp only
    split
    · unfold onChipClick
      exact (filterAndRender_fields L _).2.2.1
    · rfl
  | clearFilters =>
    unfold handle onClearFilters
    exact (filterAndRender_fields L _).2.2.1
  | openSidebar => cases he
  | closeSidebar => cases he
  | fetchSettled r => cases he

theorem elapse_single_due (L : CaseFolding) (q : Page) (t : Timer) (d : Nat)
    (ht : q.timers = [t]) (hd : t.due ≤ q.now + d) :
    elapse L d q = filterAndRender L { q with timers := [], now := q.now + d } := by
  unfold elapse
  simp only [ht, List.filter_cons, List.filter_nil, hd, decide_True, Bool.not_true,
    if_true, Bool.false_eq_true, if_false, List.foldl_cons, List.foldl_nil]

/-- Claim C17: on every reachable page at most one timeout is pending and its handle
is the one `debounceTimer` holds.  A text-input event leaves exactly one pending
timeout, the new one, due 250 ms later: the former one is gone.  A check box toggle,
a chip click and the clear-filters action leave the pending timeouts, the handle and
the clock as they are, and a timeout pending at that moment still runs
`filterAndRender` once when it falls due. -/
theorem at_most_one_debounce_timer :
    (∀ (L : CaseFolding) (p : Page), Reachable L p →
      p.timers.length ≤ 1 ∧ ∀ t ∈ p.timers, p.debounceTimer = some t.id) ∧
    (∀ (L : CaseFolding) (p : Page) (v : JSString), Reachable L p →
      (handle L (.input v) p).timers = [{ id := p.nextTimer, due := p.now + 250 }] ∧
      (handle L (.input v) p).debounceTimer = some p.nextTimer ∧
      (handle L (.input v) p).recomputes = p.recomputes) ∧
    (∀ (L : CaseFolding) (p : Page) (e : Event), e.isImmediate = true →
      (handle L e p).timers = p.timers ∧
      (handle L e p).debounceTimer = p.debounceTimer ∧
      (handle L e p).now = p.now) ∧
    (∀ (L : CaseFolding) (p : Page) (e : Event) (t : Timer) (d : Nat),
      e.isImmediate = true → p.timers = [t] → t.due ≤ p.now + d →
      (elapse L d (handle L e p)).recomputes = (handle L e p).recomputes + 1 ∧
      (elapse L d (handle L e p)).timers = []) := by
  refine ⟨?_, ?_, ?_, ?_⟩
  · intro L p hp
    refine ⟨?_, timersOwned_of_reachable L p hp⟩
    obtain ⟨v, cbs, g, a, c, o, es, rfl⟩ := hp
    exact timers_le_one_run L es _ (timersOwned_initialPage v cbs g a c o) (Nat.zero_le _)
  · intro L p v hp
    have hown := timersOwned_of_reachable L p hp
    obtain ⟨id, h1, h2, h3, _⟩ := armed_of_input L p v hown
    have hid : (handle L (.input v) p).debounceTimer = some p.nextTimer := by
      unfold handle onSearchInput setTimeout clearTimeout
      dsimp only
      cases p.debounceTimer <;> rfl
    have hnow : (handle L (.input v) p).now = p.now := by
      unfold handle onSearchInput setTimeout clearTimeout
      dsimp only
      cases p.debounceTimer <;> rfl
    rw [hid] at h2
    have := Option.some.inj h2
    rw [h1, ← this, hnow]
    exact ⟨rfl, hid, h3⟩
  · intro L p e he
    obtain ⟨h1, h2, h3⟩ := handle_immediate_now L e p he
    exact ⟨h2, h3, h1⟩
  · intro L p e t d he ht hd
    obtain ⟨h1, h2, _⟩ := handle_immediate_now L e p he
    have hq : (handle L e p).timers = [t] := h2.trans ht
    have hdue : t.due ≤ (handle L e p).now + d := by
      rw [h1]
      exact hd
    have hel := elapse_single_due L (handle L e p) t d hq hdue
    have hf := filterAndRender_fields L
      { handle L e p with timers := [], now := (handle L e p).now + d }
    rw [hel]
    exact ⟨hf.2.2.2.2.2.2, hf.1⟩

/-- Instance of claim C17 on the loaded Zoom/Canvas page with `z` just typed: one
timeout is pending, due at 280 ms; toggling the first check box recomputes at once
and leaves it pending, and 250 ms later it has run `filterAndRender` once more. -/
theorem at_most_one_debounce_timer_example :
    zoomCanvasTyped.timers = [{ id := 1, due := 280 }] ∧
    (handle asciiFolding (.toggle 0) zoomCanvasTyped).timers = [{ id := 1, due := 280 }] ∧
    (handle asciiFolding (.toggle 0) zoomCanvasTyped).recomputes = 2 ∧
    (elapse asciiFolding 250 (handle asciiFolding (.toggle 0) zoomCanvasTyped)).recomputes = 3 ∧
    (elapse asciiFolding 250 (handle asciiFolding (.toggle 0) zoomCanvasTyped)).timers = [] := by
  have h1 := at_most_one_debounce_timer.2.1 asciiFolding zoomCanvasLoaded (lit "z")
    ⟨_, _, _, _, _, _, _, rfl⟩
  have hn : zoomCanvasLoaded.nextTimer = 1 := by decide
  have hw : zoomCanvasLoaded.now = 30 := by decide
  have ht : zoomCanvasTyped.timers = [{ id := 1, due := 280 }] := by
    unfold zoomCanvasTyped
    rw [h1.1, hn, hw]
  have h2 := at_most_one_debounce_timer.2.2.1 asciiFolding zoomCanvasTyped (.toggle 0) rfl
  have hnow : zoomCanvasTyped.now = 30 := by decide
  have h3 := at_most_one_debounce_timer.2.2.2 asciiFolding zoomCanvasTyped (.toggle 0)
    { id := 1, due := 280 } 250 rfl ht (by rw [hnow])
  have hr : (handle asciiFolding (.toggle 0) zoomCanvasTyped).recomputes = 2 := by decide
  refine ⟨ht, h2.1.trans ht, hr, ?_, h3.2⟩
  rw [h3.1, hr]

/-! ## Monotonicity of the filters -/

theorem applyFilters_sublist_of_imp (L : CaseFolding) (q1 q2 : JSString) (C1 C2 : List JSNum)
    (all : List Item)
    (h : ∀ s, ((decide (q2 = []) || textMatch L q2 s) && (decide (C2 = []) || catMatch C2 s)) = true →
      ((decide (q1 = []) || textMatch L q1 s) && (decide (C1 = []) || catMatch C1 s)) = true) :
    (applyFilters L q2 C2 all).Sublist (applyFilters L q1 C1 all) := by
  rw [applyFilters_eq_filter, applyFilters_eq_filter]
  exact List.monotone_filter_right all h

/-- Claim C18: for every collection and query, when every id selected in `C1` is also
selected in `C2`, the list filtered with `C2` is a sub-sequence of the list filtered
with `C1`, so selecting one category more never brings an item back. -/
theorem more_categories_fewer_items (L : CaseFolding) (q : JSString) (C1 C2 : List JSNum)
    (all : List Item) (h : ∀ id ∈ C1, id ∈ C2) :
    (applyFilters L q C2 all).Sublist (applyFilters L q C1 all) ∧
    ∀ s, s ∈ applyFilters L q C2 all → s ∈ applyFilters L q C1 all := by
  have hs : (applyFilters L q C2 all).Sublist (applyFilters L q C1 all) := by
    apply applyFilters_sublist_of_imp
    intro s hs
    rw [Bool.and_eq_true] at hs ⊢
    refine ⟨hs.1, ?_⟩
    rw [Bool.or_eq_true, decide_eq_true_eq]
    right
    rw [catMatch_iff]
    intro id hid
    have h2 := hs.2
    rw [Bool.or_eq_true, decide_eq_true_eq] at h2
    rcases h2 with h2 | h2
    · have := h id hid
      rw [h2] at this
      cases this
    · exact (catMatch_iff C2 s).mp h2 id (h id hid)
  exact ⟨hs, fun s hm => hs.subset hm⟩

/-- Instance of claim C18 on the Zoom/Canvas collection: with `10` selected Zoom is
shown; selecting `11` as well shows nothing. -/
theorem more_categories_example :
    applyFilters asciiFolding [] [some 10] [zoom, canvas] = [zoom] ∧
    applyFilters asciiFolding [] [some 10, some 11] [zoom, canvas] = [] ∧
    (applyFilters asciiFolding [] [some 10, some 11] [zoom, canvas]).Sublist
      (applyFilters asciiFolding [] [some 10] [zoom, canvas]) :=
  ⟨by decide, by decide,
    (more_categories_fewer_items asciiFolding [] [some 10] [some 10, some 11] [zoom, canvas]
      (by decide)).1⟩

/-- Claim C19: for every collection and selection, when the query `q1` occurs inside
the query `q2`, the list filtered with `q2` is a sub-sequence of the list filtered
with `q1`, so typing a longer query that contains the previous one never adds an
item. -/
theorem longer_query_fewer_items (L : CaseFolding) (q1 q2 : JSString) (C : List JSNum)
    (all : List Item) (h : q1 <:+: q2) :
    (applyFilters L q2 C all).Sublist (applyFilters L q1 C all) ∧
    ∀ s, s ∈ applyFilters L q2 C all → s ∈ applyFilters L q1 C all := by
  have hs : (applyFilters L q2 C all).Sublist (applyFilters L q1 C all) := by
    apply applyFilters_sublist_of_imp
    intro s hs
    rw [Bool.and_eq_true] at hs ⊢
    refine ⟨?_, hs.2⟩
    rw [Bool.or_eq_true, decide_eq_true_eq]
    by_cases hq1 : q1 = []
    · exact Or.inl hq1
    · right
      have h1 := hs.1
      rw [Bool.or_eq_true, decide_eq_true_eq] at h1
      rcases h1 with h1 | h1
      · exfalso
        rw [h1] at h
        exact hq1 (List.infix_nil.mp h)
      · rw [textMatch_iff] at h1 ⊢
        rcases h1 with h1 | h1
        · exact Or.inl (h.trans h1)
        · exact Or.inr (h.trans h1)
  exact ⟨hs, fun s hm => hs.subset hm⟩

/-- Instance of claim C19 on the Zoom/Canvas collection: `a` keeps both items, the
longer `an` keeps Canvas only. -/
theorem longer_query_example :
    applyFilters asciiFolding (lit "a") [] [zoom, canvas] = [zoom, canvas] ∧
    applyFilters asciiFolding (lit "an") [] [zoom, canvas] = [canvas] ∧
    (applyFilters asciiFolding (lit "an") [] [zoom, canvas]).Sublist
      (applyFilters asciiFolding (lit "a") [] [zoom, canvas]) :=
  ⟨by decide, by decide,
    (longer_query_fewer_items asciiFolding (lit "a") (lit "an") [] [zoom, canvas]
      (by decide)).1⟩


/-! ## Well-formed items never throw -/

theorem filterE_ok {α ε : Type} (f : α → Except ε Bool) (l : List α)
    (h : ∀ x ∈ l, ∃ b, f x = .ok b) : ∃ r, filterE f l = .ok r ∧ r.Sublist l := by
  induction l with
  | nil => exact ⟨[], rfl, List.Sublist.refl _⟩
  | cons x xs ih =>
    obtain ⟨b, hb⟩ := h x (List.mem_cons_self _ _)
    obtain ⟨r, hr, hs⟩ := ih (fun y hy => h y (List.mem_cons_of_mem _ hy))
    refine ⟨if b then x :: r else r, ?_, ?_⟩
    · simp only [filterE, hb, hr]
    · cases b
      · exact List.Sublist.cons _ hs
      · exact List.Sublist.cons₂ _ hs

theorem mapE_ok {α β ε : Type} (f : α → Except ε β) (l : List α)
    (h : ∀ x ∈ l, ∃ y, f x = .ok y) : ∃ r, mapE f l = .ok r := by
  induction l with
  | nil => exact ⟨[], rfl⟩
  | cons x xs ih =>
    obtain ⟨y, hy⟩ := h x (List.mem_cons_self _ _)
    obtain ⟨r, hr⟩ := ih (fun z hz => h z (List.mem_cons_of_mem _ hz))
    exact ⟨y :: r, by simp only [mapE, hy, hr]⟩

theorem textMatchRaw_ok (L : CaseFolding) (q : JSString) (s : RawItem) (h : WellFormed s) :
    ∃ b, textMatchRaw L q s = .ok b := by
  obtain ⟨⟨n, hn⟩, ⟨t, ht⟩, _⟩ := h
  unfold textMatchRaw
  rw [hn, ht]
  simp only [toLowerCaseOf]
  split
  · exact ⟨true, rfl⟩
  · exact ⟨_, rfl⟩

theorem catMatchRaw_ok (C : List JSNum) (s : RawItem) (h : WellFormed s) :
    ∃ b, catMatchRaw C s = .ok b := by
  obtain ⟨_, _, ⟨cs, hc, hne⟩⟩ := h
  obtain ⟨ids, hids⟩ := mapE_ok (readField (fun c => c.id)) cs (by
    intro c hcm
    cases c with
    | none => exact absurd rfl (hne none hcm)
    | some c => exact ⟨_, rfl⟩)
  unfold catMatchRaw
  rw [hc]
  dsimp only
  rw [hids]
  exact ⟨_, rfl⟩

theorem badgesHtmlRaw_ok (s : RawItem) (h : WellFormed s) :
    ∃ html, badgesHtmlRaw s = .ok html := by
  obtain ⟨_, _, ⟨cs, hc, hne⟩⟩ := h
  obtain ⟨kept, hkept, hsub⟩ := filterE_ok isCardTypeE cs (by
    intro c hcm
    cases c with
    | none => exact absurd rfl (hne none hcm)
    | some c => exact ⟨_, rfl⟩)
  obtain ⟨bs, hbs⟩ := mapE_ok badgeHtmlElem kept (by
    intro c hcm
    cases c with
    | none => exact absurd rfl (hne none (hsub.subset hcm))
    | some c => exact ⟨_, rfl⟩)
  unfold badgesHtmlRaw
  rw [hc]
  dsimp only
  rw [hkept]
  dsimp only
  rw [hbs]
  exact ⟨_, rfl⟩

theorem cardHtmlRaw_ok (s : RawItem) (h : WellFormed s) : ∃ html, cardHtmlRaw s = .ok html := by
  obtain ⟨badges, hb⟩ := badgesHtmlRaw_ok s h
  obtain ⟨⟨n, hn⟩, _, _⟩ := h
  have hi : ∃ g, indexZero s.name = .ok g := by
    rw [hn]
    cases n with
    | nil => exact ⟨_, rfl⟩
    | cons c n => exact ⟨_, rfl⟩
  obtain ⟨g, hg⟩ := hi
  unfold cardHtmlRaw logoHtmlRaw
  rw [hg]
  dsimp only
  rw [hb]
  exact ⟨_, rfl⟩

theorem applyFiltersRaw_ok (L : CaseFolding) (q : JSString) (C : List JSNum)
    (all : List RawItem) (h : ∀ s ∈ all, WellFormed s) :
    ∃ r, applyFiltersRaw L q C all = .ok r ∧ r.Sublist all := by
  have h1 : ∃ r, (if q ≠ [] then filterE (textMatchRaw L q) all else .ok all) = .ok r ∧
      r.Sublist all := by
    split
    · exact filterE_ok _ all (fun s hs => textMatchRaw_ok L q s (h s hs))
    · exact ⟨all, rfl, List.Sublist.refl _⟩
  obtain ⟨r1, hr1, hs1⟩ := h1
  unfold applyFiltersRaw
  rw [hr1]
  dsimp only
  split
  · obtain ⟨r2, hr2, hs2⟩ := filterE_ok (catMatchRaw C) r1
      (fun s hs => catMatchRaw_ok C s (h s (hs1.subset hs)))
    exact ⟨r2, hr2, hs2.trans hs1⟩
  · exact ⟨r1, rfl, hs1⟩

theorem gridHtmlRaw_ok (items : List RawItem) (h : ∀ s ∈ items, WellFormed s) :
    ∃ html, gridHtmlRaw items = .ok html := by
  unfold gridHtmlRaw
  split
  · exact ⟨_, rfl⟩
  · obtain ⟨r, hr⟩ := mapE_ok cardHtmlRaw items (fun s hs => cardHtmlRaw_ok s (h s hs))
    rw [hr]
    exact ⟨_, rfl⟩

theorem filterAndRenderRaw_ok (L : CaseFolding) (v : JSString) (cbs : List Checkbox)
    (all : List RawItem) (h : ∀ s ∈ all, WellFormed s) :
    ∃ out, filterAndRenderRaw L v cbs all = .ok out := by
  obtain ⟨r, hr, hs⟩ := applyFiltersRaw_ok L (trim (L.toLowerCase v)) (selectedCats cbs) all h
  obtain ⟨g, hg⟩ := gridHtmlRaw_ok r (fun s hm => h s (hs.subset hm))
  unfold filterAndRenderRaw
  rw [hr]
  dsimp only
  rw [hg]
  exact ⟨_, rfl⟩

theorem filterE_toRaw {ε : Type} (f : RawItem → Except ε Bool) (g : Item → Bool)
    (l : List Item) (h : ∀ s, f s.toRaw = .ok (g s)) :
    filterE f (l.map Item.toRaw) = .ok ((l.filter g).map Item.toRaw) := by
  induction l with
  | nil => rfl
  | cons x xs ih =>
    simp only [List.map_cons, filterE, h x, ih, List.filter_cons]
    cases g x <;> rfl

theorem mapE_toRaw {ε β : Type} (f : RawItem → Except ε β) (g : Item → β)
    (l : List Item) (h : ∀ s, f s.toRaw = .ok (g s)) :
    mapE f (l.map Item.toRaw) = .ok (l.map g) := by
  induction l with
  | nil => rfl
  | cons x xs ih =>
    simp only [List.map_cons, mapE, h x, ih]

theorem escapeHtmlOf_str (s : JSString) : escapeHtmlOf (.str s) = escapeHtml (some s) := by
  cases s <;> rfl

theorem textMatchRaw_toRaw (L : CaseFolding) (q : JSString) (s : Item) :
    textMatchRaw L q s.toRaw = .ok (textMatch L q s) := by
  unfold textMatchRaw textMatch Item.toRaw
  simp only [toLowerCaseOf]
  split
  · rename_i h
    rw [h, Bool.true_or]
  · rename_i h
    rw [Bool.not_eq_true] at h
    rw [h, Bool.false_or]

theorem mapE_map {α β γ ε : Type} (f : β → Except ε γ) (g : α → β) (k : α → γ)
    (l : List α) (h : ∀ x, f (g x) = .ok (k x)) : mapE f (l.map g) = .ok (l.map k) := by
  induction l with
  | nil => rfl
  | cons x xs ih =>
    simp only [List.map_cons, mapE, h x, ih]

theorem filterE_map {α β ε : Type} (f : β → Except ε Bool) (g : α → β) (k : α → Bool)
    (l : List α) (h : ∀ x, f (g x) = .ok (k x)) :
    filterE f (l.map g) = .ok ((l.filter k).map g) := by
  induction l with
  | nil => rfl
  | cons x xs ih =>
    simp only [List.map_cons, filterE, h x, ih, List.filter_cons]
    cases k x <;> rfl

theorem hasId_toRaw (cs : List Category) (id : JSNum) :
    hasId (setOf (cs.map (fun c => JSVal.num c.id))) id =
      decide (id ∈ setOf (cs.map (fun c => (some c.id : JSNum)))) := by
  cases id with
  | none =>
    unfold hasId
    symm
    rw [decide_eq_false_iff_not, mem_setOf, List.mem_map]
    rintro ⟨c, _, hc⟩
    cases hc
  | some n =>
    unfold hasId
    dsimp only
    have : JSVal.num n ∈ setOf (cs.map (fun c => JSVal.num c.id)) ↔
        (some n : JSNum) ∈ setOf (cs.map (fun c => (some c.id : JSNum))) := by
      rw [mem_setOf, mem_setOf, List.mem_map, List.mem_map]
      constructor
      · rintro ⟨c, hc, h⟩
        refine ⟨c, hc, ?_⟩
        rw [JSVal.num.inj h]
      · rintro ⟨c, hc, h⟩
        refine ⟨c, hc, ?_⟩
        rw [Option.some.inj h]
    exact decide_eq_decide.mpr this

theorem catMatchRaw_toRaw (C : List JSNum) (s : Item) :
    catMatchRaw C s.toRaw = .ok (catMatch C s) := by
  have hfun : (fun id => hasId (setOf (s.categories.map (fun c => JSVal.num c.id))) id) =
      fun id => decide (id ∈ setOf (s.categories.map (fun c => (some c.id : JSNum)))) :=
    funext (hasId_toRaw s.categories)
  have hids : mapE (readField (fun c => c.id)) (s.categories.map (fun c => some c.toRaw)) =
      .ok (s.categories.map (fun c => JSVal.num c.id)) :=
    mapE_map _ _ _ _ (fun _ => rfl)
  unfold catMatchRaw catMatch Item.toRaw
  dsimp only
  rw [hids]
  dsimp only
  rw [hfun]

theorem applyFiltersRaw_toRaw (L : CaseFolding) (q : JSString) (C : List JSNum)
    (all : List Item) :
    applyFiltersRaw L q C (all.map Item.toRaw) =
      .ok ((applyFilters L q C all).map Item.toRaw) := by
  unfold applyFiltersRaw applyFilters
  dsimp only
  by_cases hq : q = []
  · rw [if_neg (not_not.mpr hq), if_neg (not_not.mpr hq)]
    dsimp only
    split
    · exact filterE_toRaw _ _ _ (catMatchRaw_toRaw C)
    · rfl
  · rw [if_pos hq, if_pos hq, filterE_toRaw _ _ _ (textMatchRaw_toRaw L q)]
    dsimp only
    split
    · exact filterE_toRaw _ _ _ (catMatchRaw_toRaw C)
    · rfl

theorem logoHtmlRaw_toRaw (s : Item) : logoHtmlRaw s.toRaw = .ok (logoHtml s) := by
  obtain ⟨id, name, tagline, logo, featured, categories⟩ := s
  cases name with
  | nil =>
    cases logo with
    | none => rfl
    | some l => cases l <;> rfl
  | cons c name =>
    cases logo with
    | none => rfl
    | some l => cases l <;> rfl

theorem badgeHtmlRaw_toRaw (c : Category) : badgeHtmlRaw c.toRaw = badgeHtml c := by
  unfold badgeHtmlRaw badgeHtml Category.toRaw
  dsimp only
  rw [escapeHtmlOf_str]
  rfl

theorem badgesHtmlRaw_toRaw (s : Item) : badgesHtmlRaw s.toRaw = .ok (badgesHtml s) := by
  have hf : filterE isCardTypeE (s.categories.map (fun c => some c.toRaw)) =
      .ok ((s.categories.filter (fun c => decide (c.type ∈ CARD_BADGE_TYPES))).map
        (fun c => some c.toRaw)) :=
    filterE_map _ _ _ _ (fun _ => rfl)
  have hm : mapE badgeHtmlElem
      ((s.categories.filter (fun c => decide (c.type ∈ CARD_BADGE_TYPES))).map
        (fun c => some c.toRaw)) =
      .ok ((s.categories.filter (fun c => decide (c.type ∈ CARD_BADGE_TYPES))).map badgeHtml) :=
    mapE_map _ _ _ _ (fun c => congrArg Except.ok (badgeHtmlRaw_toRaw c))
  unfold badgesHtmlRaw badgesHtml cardBadges Item.toRaw
  dsimp only
  rw [hf]
  dsimp only
  rw [hm]

theorem cardHtmlRaw_toRaw (s : Item) : cardHtmlRaw s.toRaw = .ok (cardHtml s) := by
  unfold cardHtmlRaw
  rw [logoHtmlRaw_toRaw, badgesHtmlRaw_toRaw]
  dsimp only
  have hid : s.toRaw.id.toJSString = s.id.toJSString := by
    unfold Item.toRaw
    cases s.id <;> rfl
  have hn : escapeHtmlOf s.toRaw.name = escapeHtml (some s.name) := escapeHtmlOf_str _
  have ht : escapeHtmlOf s.toRaw.tagline = escapeHtml (some s.tagline) := escapeHtmlOf_str _
  have hf : s.toRaw.featured.truthy = s.featured := rfl
  rw [hid, hn, ht, hf]
  rfl

theorem gridHtmlRaw_toRaw (items : List Item) :
    gridHtmlRaw (items.map Item.toRaw) = .ok (gridHtml items) := by
  unfold gridHtmlRaw gridHtml
  rw [List.length_map]
  split
  · rfl
  · rw [mapE_toRaw _ _ _ cardHtmlRaw_toRaw]

theorem filterAndRenderRaw_toRaw (L : CaseFolding) (p : Page) :
    filterAndRenderRaw L p.searchValue p.checkboxes (p.allSoftware.map Item.toRaw) =
      .ok ((filterAndRender L p).grid, (filterAndRender L p).activeFilters,
        (filterAndRender L p).catalogCount) := by
  unfold filterAndRenderRaw
  rw [applyFiltersRaw_toRaw]
  dsimp only
  rw [gridHtmlRaw_toRaw, filterAndRender_grid, filterAndRender_activeFilters,
    filterAndRender_catalogCount, List.length_map, List.length_map]
  rfl

theorem wellFormed_toRaw (s : Item) : WellFormed s.toRaw := by
  refine ⟨⟨s.name, rfl⟩, ⟨s.tagline, rfl⟩, ⟨_, rfl, ?_⟩⟩
  intro c hc
  rw [List.mem_map] at hc
  obtain ⟨c0, _, rfl⟩ := hc
  exact fun h => by cases h

theorem logoHtmlRaw_nameless (s : RawItem) (hn : s.name = .str []) :
    (s.logo.truthy = false →
      logoHtmlRaw s = .ok (lit "<div class=\"logo-placeholder\"></div>")) ∧
    (s.logo.truthy = true →
      logoHtmlRaw s =
        .ok (lit "<img class=\"card-logo\" src=\"" ++ escapeHtmlOf s.logo ++
          lit "\" alt=\"\" onerror=\"this.style.display=\x27none\x27; this.nextElementSibling.style.display=\x27flex\x27;\">\n                   <div class=\"logo-placeholder\" style=\"display:none;\"></div>")) := by
  have hg : indexZero s.name = .ok .undefined := by rw [hn]; rfl
  have he : escapeHtmlOf .undefined = [] := rfl
  constructor
  · intro hl
    unfold logoHtmlRaw
    rw [hg]
    dsimp only
    rw [hl, he]
    rfl
  · intro hl
    unfold logoHtmlRaw
    rw [hg]
    dsimp only
    rw [hl, he, if_pos rfl, List.append_nil, List.append_assoc]
    rfl

/-- Claim C20 as stated fails: an item whose name and tagline are strings and whose
categories are the array `[null]` meets the conditions on the fields, yet `renderGrid`
throws on it when it reads `c.type` of the `null` element: for every search text
`filterAndRender` either throws or has filtered the item out, and with the empty text
it throws; with a category selected the filter throws first, on `c.id`. -/
theorem null_category_throws :
    ListedFields nullCategoryRaw ∧
    gridHtmlRaw [nullCategoryRaw] = .error .typeError ∧
    (∀ (L : CaseFolding) (v : JSString),
      filterAndRenderRaw L v [] [nullCategoryRaw] = .error .typeError ∨
        ∃ out, filterAndRenderRaw L v [] [nullCategoryRaw] =
          .ok (noResultsHtml, out)) ∧
    filterAndRenderRaw asciiFolding (lit "") [] [nullCategoryRaw] = .error .typeError ∧
    catMatchRaw [some 10] nullCategoryRaw = .error .typeError := by
  refine ⟨⟨⟨_, rfl⟩, ⟨_, rfl⟩, ⟨_, rfl⟩⟩, rfl, ?_, rfl, rfl⟩
  intro L v
  have hsel : selectedCats [] = [] := rfl
  unfold filterAndRenderRaw applyFiltersRaw
  rw [hsel]
  by_cases hq : trim (L.toLowerCase v) = []
  · left
    rw [if_neg (not_not.mpr hq)]
    rfl
  · rw [if_pos hq]
    cases hm : textMatchRaw L (trim (L.toLowerCase v)) nullCategoryRaw with
    | error e =>
      exfalso
      unfold textMatchRaw nullCategoryRaw at hm
      simp only [toLowerCaseOf] at hm
      split at hm <;> cases hm
    | ok b =>
      cases b with
      | true =>
        left
        simp only [filterE, hm]
        rfl
      | false =>
        right
        simp only [filterE, hm]
        exact ⟨_, rfl⟩

/-- Claim C20, amended: on items whose name and tagline are strings and whose
categories are an array without `null` element, whatever the other fields, the query
and the check boxes, `filterAndRender` and `renderGrid` reach their end without
throwing; on such items the result is the one of the typed functions used throughout.
For the empty name `s.name[0]` is `undefined`, `escapeHtml` turns it into the empty
string and the placeholder of the card is empty.  An item whose name is missing makes
`renderGrid` throw.  The condition is the one on the fields plus the absence of `null`
among the categories. -/
theorem well_formed_items_never_throw :
    (∀ (L : CaseFolding) (v : JSString) (cbs : List Checkbox) (all : List RawItem),
      (∀ s ∈ all, WellFormed s) → ∃ out, filterAndRenderRaw L v cbs all = .ok out) ∧
    (∀ items : List RawItem, (∀ s ∈ items, WellFormed s) →
      ∃ html, gridHtmlRaw items = .ok html) ∧
    (∀ (L : CaseFolding) (p : Page),
      filterAndRenderRaw L p.searchValue p.checkboxes (p.allSoftware.map Item.toRaw) =
        .ok ((filterAndRender L p).grid, (filterAndRender L p).activeFilters,
          (filterAndRender L p).catalogCount)) ∧
    (∀ items : List Item, gridHtmlRaw (items.map Item.toRaw) = .ok (gridHtml items)) ∧
    (indexZero (.str []) = .ok .undefined ∧ escapeHtmlOf .undefined = [] ∧
      escapeHtml (firstUnit []) = []) ∧
    (∀ s : RawItem, s.name = .str [] →
      (s.logo.truthy = false →
        logoHtmlRaw s = .ok (lit "<div class=\"logo-placeholder\"></div>")) ∧
      (s.logo.truthy = true →
        logoHtmlRaw s =
          .ok (lit "<img class=\"card-logo\" src=\"" ++ escapeHtmlOf s.logo ++
            lit "\" alt=\"\" onerror=\"this.style.display=\x27none\x27; this.nextElementSibling.style.display=\x27flex\x27;\">\n                   <div class=\"logo-placeholder\" style=\"display:none;\"></div>"))) ∧
    (∀ s : Item, s.name = [] → s.logo = none →
      logoHtml s = lit "<div class=\"logo-placeholder\"></div>") ∧
    gridHtmlRaw [brokenRaw] = .error .typeError ∧
    (∀ s : RawItem, WellFormed s ↔
      ListedFields s ∧ ∀ cs, s.categories = some cs → ∀ c ∈ cs, c ≠ none) := by
  refine ⟨filterAndRenderRaw_ok, gridHtmlRaw_ok, filterAndRenderRaw_toRaw, gridHtmlRaw_toRaw,
    ⟨rfl, rfl, rfl⟩, logoHtmlRaw_nameless, ?_, rfl, ?_⟩
  · intro s hn hl
    unfold logoHtml logoPresent
    rw [hn, hl]
    rfl
  · intro s
    constructor
    · rintro ⟨h1, h2, cs, hc, hne⟩
      refine ⟨⟨h1, h2, cs, hc⟩, ?_⟩
      intro cs2 hc2
      rw [hc] at hc2
      rw [← Option.some.inj hc2]
      exact hne
    · rintro ⟨⟨h1, h2, cs, hc⟩, hne⟩
      exact ⟨h1, h2, cs, hc, hne cs hc⟩

/-- Instance of claim C20: a collection holding one item with the empty name is
filtered and rendered for the query `unt`; its card has an empty placeholder. -/
theorem well_formed_items_example :
    (∃ out, filterAndRenderRaw asciiFolding (lit "unt") [] [namelessRaw] = .ok out) ∧
    logoHtmlRaw namelessRaw = .ok (lit "<div class=\"logo-placeholder\"></div>") :=
  ⟨well_formed_items_never_throw.1 asciiFolding (lit "unt") [] [namelessRaw]
      (fun s hs => by
        rw [List.mem_singleton] at hs
        rw [hs]
        exact ⟨⟨_, rfl⟩, ⟨_, rfl⟩, ⟨[], rfl, fun c hc => by cases hc⟩⟩),
    (well_formed_items_never_throw.2.2.2.2.2.1 namelessRaw rfl).1 rfl⟩

/-! ## Cards and identifiers -/

theorem occurrences_cons (pat : JSString) (c : Nat) (s : JSString) :
    occurrences pat (c :: s) =
      (if pat.isPrefixOf (c :: s) then 1 else 0) + occurrences pat s := by
  unfold occurrences
  rw [List.tails, List.filter_cons]
  split
  · rw [List.length_cons]
    omega
  · omega

theorem occurrences_linkPat_nil : occurrences linkPat [] = 0 := rfl

theorem linkPat_isPrefixOf_ne (c : Nat) (s : JSString) (h : c ≠ 0x3C) :
    linkPat.isPrefixOf (c :: s) = false := by
  unfold linkPat
  rw [List.isPrefixOf, Bool.and_eq_false_iff]
  left
  rw [beq_eq_false_iff_ne]
  exact fun h2 => h h2.symm

theorem occurrences_of_no_lt (s : JSString) (h : 0x3C ∉ s) : occurrences linkPat s = 0 := by
  induction s with
  | nil => rfl
  | cons c s ih =>
    rw [occurrences_cons, linkPat_isPrefixOf_ne c s (fun hc => h (by rw [hc]; exact List.mem_cons_self _ _)),
      ih (fun hm => h (List.mem_cons_of_mem _ hm))]
    rfl

theorem linkSafe_tail (c : Nat) (s : JSString) (h : linkSafe (c :: s) = true) :
    linkSafe s = true := by
  unfold linkSafe at h
  split at h
  · rw [Bool.and_eq_true] at h
    exact h.2
  · exact h

theorem linkSafe_of_no_lt (s : JSString) (h : 0x3C ∉ s) : linkSafe s = true := by
  induction s with
  | nil => rfl
  | cons c s ih =>
    have hs := ih (fun hm => h (List.mem_cons_of_mem _ hm))
    have hc : c ≠ 0x3C := fun hc => h (by rw [hc]; exact List.mem_cons_self _ _)
    unfold linkSafe
    split
    · rw [Bool.and_eq_true, bne_iff_ne]
      exact ⟨hc, hs⟩
    · exact hs

theorem linkSafe_append (x y : JSString) (hy : 2 ≤ y.length) :
    linkSafe (x ++ y) = linkSafe y := by
  induction x with
  | nil => rfl
  | cons c x ih =>
    have e : linkSafe (c :: (x ++ y)) =
        if (x ++ y).length < 2 then (c != 0x3C && linkSafe (x ++ y)) else linkSafe (x ++ y) := rfl
    rw [List.cons_append, e, if_neg (by rw [List.length_append]; omega)]
    exact ih

theorem occurrences_append (x y : JSString) (h : linkSafe x = true) :
    occurrences linkPat (x ++ y) = occurrences linkPat x + occurrences linkPat y := by
  induction x with
  | nil =>
    rw [List.nil_append, occurrences_linkPat_nil, Nat.zero_add]
  | cons c x ih =>
    have hx := linkSafe_tail c x h
    have hp : linkPat.isPrefixOf (c :: (x ++ y)) = linkPat.isPrefixOf (c :: x) := by
      unfold linkSafe at h
      split at h
      · rw [Bool.and_eq_true, bne_iff_ne] at h
        rw [linkPat_isPrefixOf_ne _ _ h.1, linkPat_isPrefixOf_ne _ _ h.1]
      · rename_i hlen
        rcases x with _ | ⟨a, _ | ⟨b, x2⟩⟩
        · exact absurd (Nat.zero_lt_two) hlen
        · exact absurd (Nat.one_lt_two) hlen
        · unfold linkPat
          simp only [List.cons_append, List.isPrefixOf]
    rw [List.cons_append, occurrences_cons, occurrences_cons, ih hx, hp]
    omega

theorem escapeHtml_link (str : Option JSString) :
    occurrences linkPat (escapeHtml str) = 0 ∧ linkSafe (escapeHtml str) = true := by
  have h : 0x3C ∉ escapeHtml str := fun hm => (escapeHtml_no_angle str _ hm).1 rfl
  exact ⟨occurrences_of_no_lt _ h, linkSafe_of_no_lt _ h⟩

theorem badgeHtml_link (c : Category) (hc : c.type ∈ CARD_BADGE_TYPES) :
    occurrences linkPat (badgeHtml c) = 0 ∧ linkSafe (badgeHtml c) = true := by
  have ht : 0x3C ∉ c.type := by
    have : ∀ t ∈ CARD_BADGE_TYPES, 0x3C ∉ t := by decide
    exact this _ hc
  have h1 := occurrences_of_no_lt c.type ht
  have h2 := linkSafe_of_no_lt c.type ht
  have h3 := (escapeHtml_link (some c.name)).1
  have h4 := (escapeHtml_link (some c.name)).2
  constructor
  · unfold badgeHtml
    simp only [List.append_assoc]
    simp (disch := first | assumption | decide) only [occurrences_append, h1, h3]
    decide
  · unfold badgeHtml
    rw [linkSafe_append _ (lit "</span>") (by decide)]
    decide

theorem linkSafe_append_both (x y : JSString) (hx : linkSafe x = true)
    (hy : linkSafe y = true) : linkSafe (x ++ y) = true := by
  induction x with
  | nil => exact hy
  | cons c x ih =>
    have hxt := linkSafe_tail c x hx
    have e : linkSafe (c :: (x ++ y)) =
        if (x ++ y).length < 2 then (c != 0x3C && linkSafe (x ++ y)) else linkSafe (x ++ y) := rfl
    rw [List.cons_append, e, ih hxt]
    split
    · rename_i hlen
      have hxl : x.length < 2 := by
        rw [List.length_append] at hlen
        omega
      have e2 : linkSafe (c :: x) = if x.length < 2 then (c != 0x3C && linkSafe x) else linkSafe x :=
        rfl
      rw [e2, if_pos hxl, Bool.and_eq_true] at hx
      rw [hx.1]
      rfl
    · rfl

theorem badges_link (l : List Category) (hl : ∀ c ∈ l, c.type ∈ CARD_BADGE_TYPES) :
    occurrences linkPat ((l.map badgeHtml).flatten) = 0 ∧
      linkSafe ((l.map badgeHtml).flatten) = true := by
  induction l with
  | nil => exact ⟨rfl, rfl⟩
  | cons c l ih =>
    obtain ⟨h1, h2⟩ := badgeHtml_link c (hl c (List.mem_cons_self _ _))
    obtain ⟨h3, h4⟩ := ih (fun d hd => hl d (List.mem_cons_of_mem _ hd))
    rw [List.map_cons, List.flatten_cons]
    exact ⟨by rw [occurrences_append _ _ h2, h1, h3], linkSafe_append_both _ _ h2 h4⟩

theorem badgesHtml_link (s : Item) :
    occurrences linkPat (badgesHtml s) = 0 ∧ linkSafe (badgesHtml s) = true := by
  unfold badgesHtml
  apply badges_link
  intro c hc
  exact ((mem_cardBadges s c).mp hc).2

set_option maxRecDepth 8192 in
theorem logoHtml_link (s : Item) :
    occurrences linkPat (logoHtml s) = 0 ∧ linkSafe (logoHtml s) = true := by
  have h1 := (escapeHtml_link s.logo).1
  have h2 := (escapeHtml_link s.logo).2
  have h3 := (escapeHtml_link (firstUnit s.name)).1
  have h4 := (escapeHtml_link (firstUnit s.name)).2
  unfold logoHtml
  split
  · constructor
    · simp only [List.append_assoc]
      simp (disch := first | assumption | decide) only [occurrences_append, h1, h3]
      decide
    · rw [linkSafe_append _ (lit "</div>") (by decide)]
      decide
  · constructor
    · simp only [List.append_assoc]
      simp (disch := first | assumption | decide) only [occurrences_append, h3]
      decide
    · rw [linkSafe_append _ (lit "</div>") (by decide)]
      decide

set_option maxRecDepth 8192 in
theorem cardHtml_link (s : Item) (hid : 0x3C ∉ s.id.toJSString) :
    occurrences linkPat (cardHtml s) = 1 ∧ linkSafe (cardHtml s) = true := by
  have i1 := occurrences_of_no_lt _ hid
  have i2 := linkSafe_of_no_lt _ hid
  have n1 := (escapeHtml_link (some s.name)).1
  have n2 := (escapeHtml_link (some s.name)).2
  have t1 := (escapeHtml_link (some s.tagline)).1
  have t2 := (escapeHtml_link (some s.tagline)).2
  have l1 := (logoHtml_link s).1
  have l2 := (logoHtml_link s).2
  have b1 := (badgesHtml_link s).1
  have b2 := (badgesHtml_link s).2
  have f1 : occurrences linkPat (if s.featured = true then lit "featured" else lit "") = 0 := by
    split <;> decide
  have f2 : linkSafe (if s.featured = true then lit "featured" else lit "") = true := by
    split <;> decide
  constructor
  · unfold cardHtml
    simp only [List.append_assoc]
    simp (disch := first | assumption | decide) only [occurrences_append, i1, n1, t1, l1, b1, f1]
    decide
  · unfold cardHtml
    rw [linkSafe_append _ (lit "</div>\n                </a>\n            ") (by decide)]
    decide

theorem cards_link (items : List Item) (hids : ∀ s ∈ items, 0x3C ∉ s.id.toJSString) :
    occurrences linkPat ((items.map cardHtml).flatten) = items.length := by
  induction items with
  | nil => rfl
  | cons s items ih =>
    obtain ⟨h1, h2⟩ := cardHtml_link s (hids s (List.mem_cons_self _ _))
    rw [List.map_cons, List.flatten_cons, occurrences_append _ _ h2, h1,
      ih (fun t ht => hids t (List.mem_cons_of_mem _ ht)), List.length_cons]
    omega

theorem digitChar_ne_lt (k : Nat) (hk : k < 10) : (Nat.digitChar k).toNat ≠ 0x3C := by
  interval_cases k <;> decide

theorem toDigitsCore_no_lt (fuel : Nat) :
    ∀ (n : Nat) (acc : List Char), (∀ c ∈ acc, c.toNat ≠ 0x3C) →
      ∀ c ∈ Nat.toDigitsCore 10 fuel n acc, c.toNat ≠ 0x3C := by
  induction fuel with
  | zero =>
    intro n acc hacc c hc
    exact hacc c hc
  | succ fuel ih =>
    intro n acc hacc c hc
    have hd : ∀ c ∈ Nat.digitChar (n % 10) :: acc, c.toNat ≠ 0x3C := by
      intro c hc
      rcases List.mem_cons.mp hc with rfl | hc
      · exact digitChar_ne_lt _ (Nat.mod_lt _ (by decide))
      · exact hacc c hc
    unfold Nat.toDigitsCore at hc
    dsimp only at hc
    split at hc
    · exact hd c hc
    · exact ih _ _ hd c hc

theorem natToString_no_lt (n : Nat) : 0x3C ∉ natToString n := by
  intro h
  unfold natToString lit at h
  rw [List.mem_map] at h
  obtain ⟨c, hc, hc2⟩ := h
  have hc3 : c ∈ Nat.toDigits 10 n := hc
  exact toDigitsCore_no_lt _ _ _ (fun _ h => by cases h) c hc3 hc2

theorem numeric_id_no_lt (n : Int) : 0x3C ∉ (ItemId.num n).toJSString := by
  unfold ItemId.toJSString numToString
  cases n with
  | ofNat k => exact natToString_no_lt k
  | negSucc k =>
    intro h
    rcases List.mem_cons.mp h with h | h
    · exact absurd h (by decide)
    · exact natToString_no_lt _ h

set_option maxRecDepth 65536 in
theorem splitIdItem_links :
    occurrences (lit "<a ") (gridHtml [splitIdItem]) = 2 ∧
    occurrences (lit "class=\"featured\"") (gridHtml [splitIdItem]) = 1 ∧
    occurrences (lit "<a ") (gridHtml [zoom, canvas]) = 2 ∧
    occurrences (lit "featured") (gridHtml [zoom, canvas]) = 0 ∧
    cardOpening splitIdItem =
      lit ("\n                <a href=\"/software/7\" class=\"featured\"></a>" ++
        "<a href=\"/software/8\" class=\"software-card \">") := by
  refine ⟨by decide, by decide, by decide, by decide, by decide⟩

/-- Claim C15, evaluated on the code: the identifier reaches the `href` without passing
through `escapeHtml`, unlike every other field.  The item `splitIdItem`, which is not
featured and whose identifier is the string `7" class="featured"></a><a href="/software/8`,
gets a grid with two link elements, the first one to `/software/7` with the class
`featured`.  When no identifier holds `<`, as with every numeric identifier, the grid
of a non-empty list holds exactly one `<a ` per item, the cards follow the list, and
each card opens with the link to its item. -/
theorem string_id_breaks_card :
    splitIdItem.featured = false ∧
    cardOpening splitIdItem =
      lit ("\n                <a href=\"/software/7\" class=\"featured\"></a>" ++
        "<a href=\"/software/8\" class=\"software-card \">") ∧
    cardOpening splitIdItem <+: gridHtml [splitIdItem] ∧
    occurrences (lit "<a ") (gridHtml [splitIdItem]) = 2 ∧
    occurrences (lit "class=\"featured\"") (gridHtml [splitIdItem]) = 1 ∧
    (∀ items : List Item, items ≠ [] → (∀ s ∈ items, 0x3C ∉ s.id.toJSString) →
      occurrences (lit "<a ") (gridHtml items) = items.length) ∧
    (∀ items : List Item, items ≠ [] → (∀ s ∈ items, ∃ n, s.id = .num n) →
      occurrences (lit "<a ") (gridHtml items) = items.length) ∧
    (∀ items : List Item, items ≠ [] → gridHtml items = (items.map cardHtml).flatten) ∧
    (∀ s : Item, cardOpening s <+: cardHtml s) := by
  have hgen : ∀ items : List Item, items ≠ [] → (∀ s ∈ items, 0x3C ∉ s.id.toJSString) →
      occurrences (lit "<a ") (gridHtml items) = items.length := by
    intro items hne hids
    unfold gridHtml
    rw [if_neg (fun h => hne (List.length_eq_zero.mp h))]
    exact cards_link items hids
  have hopen : ∀ s : Item, cardOpening s <+: cardHtml s := by
    intro s
    unfold cardHtml cardOpening
    have hsplit : lit "\">\n                    <div class=\"card-header\">\n                        " =
        lit "\">" ++ lit "\n                    <div class=\"card-header\">\n                        " := by
      decide
    rw [hsplit]
    simp only [List.append_assoc, List.prefix_append_right_inj, List.prefix_append]
  have hone : gridHtml [splitIdItem] = cardHtml splitIdItem := by
    unfold gridHtml
    rw [if_neg (by simp only [List.length_cons, List.length_nil]; omega)]
    simp only [List.map_cons, List.map_nil, List.flatten_cons, List.flatten_nil,
      List.append_nil]
  refine ⟨rfl, splitIdItem_links.2.2.2.2, ?_, splitIdItem_links.1,
    splitIdItem_links.2.1, hgen, ?_, ?_, hopen⟩
  · rw [hone]
    exact hopen splitIdItem
  · intro items hne hnum
    apply hgen items hne
    intro s hs
    obtain ⟨n, hn⟩ := hnum s hs
    rw [hn]
    exact numeric_id_no_lt n
  · intro items hne
    unfold gridHtml
    rw [if_neg (fun h => hne (List.length_eq_zero.mp h))]

end Catalog
